import Mathlib

/-!
Verification of the generation-orchestration and message-tree subsystem of
chat-ui.  JavaScript strings are modelled as `List Char`; machine behaviour is
embedded as executable Lean functions translated from the TypeScript source:

* `ConvGroup` — the conversation POST handler's `update` encoder and the
  surrounding stream-start logic (`src/unnamed/part_004`).
* `TreeOps` — the delete-message handler (`src/unnamed/part_004`).
* `Gen` — `generate` (`src/src/lib/server/textGeneration/generate.ts`).
* `GenMcp` — the variant of `generate` with the MCP tool path
  (`src/unnamed/part_008`).
* `Oai` — the chat-completions endpoint with the inline MCP hook
  (`src/unnamed/part_010`).
* `Merge` — the producer fan-in, modelled from the spec where the merge
  utility itself is not part of the source tree.
-/

/-- JavaScript strings, modelled as lists of characters. -/
abbrev Str := List Char

/-- Whitespace recognised by JS `trim`/`\s` (ASCII subset; the Unicode
whitespace classes never occur in the inputs considered here). -/
def jsIsWs (c : Char) : Bool :=
  c = ' ' || c = '\t' || c = '\n' || c = '\r' || c = Char.ofNat 11 || c = Char.ofNat 12

/-- JS `String.prototype.trimEnd`. -/
def jsTrimEnd (s : Str) : Str :=
  (s.reverse.dropWhile jsIsWs).reverse

/-- JS `String.prototype.trim`. -/
def jsTrim (s : Str) : Str :=
  (s.dropWhile jsIsWs).reverse.dropWhile jsIsWs |>.reverse

/-- JS `String.prototype.indexOf`, returning `-1` when absent. -/
def jsIndexOf (s pat : Str) : Int :=
  go 0 s
where
  go (i : Nat) : Str → Int
    | [] => if pat.isPrefixOf ([] : Str) then (i : Int) else -1
    | c :: t => if pat.isPrefixOf (c :: t) then (i : Int) else go (i + 1) t

/-- JS `String.prototype.lastIndexOf`, returning `-1` when absent. -/
def jsLastIndexOf (s pat : Str) : Int :=
  match ((List.range (s.length + 1)).filter fun i => pat.isPrefixOf (s.drop i)).getLast? with
  | some i => (i : Int)
  | none => -1

/-- JS `String.prototype.padEnd` with a one-character pad. -/
def jsPadEnd (s : Str) (n : Nat) (c : Char) : Str :=
  s ++ List.replicate (n - s.length) c

/-- JS `String.prototype.endsWith`. -/
def jsEndsWith (s pat : Str) : Bool :=
  pat.reverse.isPrefixOf s.reverse

/-- JS `String.prototype.includes` (substring containment). -/
def jsIncludes (s pat : Str) : Bool :=
  jsIndexOf s pat ≠ -1

/-- Lower-case a JS string (`toLowerCase`, ASCII). -/
def jsLower (s : Str) : Str := s.map Char.toLower

/-- The opening-brace character (JSON object delimiter). -/
def lbrace : Char := Char.ofNat 123

/-- The closing-brace character (JSON object delimiter). -/
def rbrace : Char := Char.ofNat 125

mutual
/-- JSON values as produced by `JSON.parse`.  Numbers keep their raw
lexeme: no claim inspects numeric values arithmetically.  Arrays and
objects carry their own list types so that decidable equality can be
derived. -/
inductive Json where
  | null : Json
  | bool (b : Bool) : Json
  | num (raw : Str) : Json
  | str (s : Str) : Json
  | arr (elems : JsonList) : Json
  | obj (fields : JsonFields) : Json
inductive JsonList where
  | nil : JsonList
  | cons (hd : Json) (tl : JsonList) : JsonList
inductive JsonFields where
  | nil : JsonFields
  | cons (key : Str) (val : Json) (tl : JsonFields) : JsonFields
end

deriving instance DecidableEq for Json, JsonList, JsonFields

/-- Build a `JsonList` from a Lean list. -/
def JsonList.ofList : List Json → JsonList
  | [] => .nil
  | x :: xs => .cons x (ofList xs)

/-- Build `JsonFields` from a Lean association list. -/
def JsonFields.ofList : List (Str × Json) → JsonFields
  | [] => .nil
  | (k, v) :: xs => .cons k v (ofList xs)

/-- View `JsonFields` as a Lean association list (`Object.entries`). -/
def JsonFields.toList : JsonFields → List (Str × Json)
  | .nil => []
  | .cons k v tl => (k, v) :: toList tl

/-- View a `JsonList` as a Lean list. -/
def JsonList.toList : JsonList → List Json
  | .nil => []
  | .cons x tl => x :: toList tl

/-- Hexadecimal digit test (`[0-9a-fA-F]`). -/
def isHexDigitChar (c : Char) : Bool :=
  c.isDigit || ('a' ≤ c && c ≤ 'f') || ('A' ≤ c && c ≤ 'F')

namespace Json

/-- Parse one JSON string body after the opening quote; returns the decoded
characters and the rest after the closing quote. -/
def parseStringBody (fuel : Nat) (s : Str) : Option (Str × Str) :=
  match fuel, s with
  | 0, _ => none
  | _, [] => none
  | fuel + 1, c :: rest =>
    if c = '"' then some ([], rest)
    else if c = '\\' then
      match rest with
      | [] => none
      | e :: rest' =>
        let dec : Option Char :=
          if e = '"' then some '"'
          else if e = '\\' then some '\\'
          else if e = '/' then some '/'
          else if e = 'n' then some '\n'
          else if e = 't' then some '\t'
          else if e = 'r' then some '\r'
          else if e = 'b' then some (Char.ofNat 8)
          else if e = 'f' then some (Char.ofNat 12)
          else none
        match dec with
        | some d =>
          match parseStringBody fuel rest' with
          | some (tail, rem) => some (d :: tail, rem)
          | none => none
        | none =>
          if e = 'u' then
            match rest' with
            | h1 :: h2 :: h3 :: h4 :: rest2 =>
              if isHexDigitChar h1 && isHexDigitChar h2 && isHexDigitChar h3 && isHexDigitChar h4 then
                let hv (h : Char) : Nat :=
                  if h.isDigit then h.toNat - 48
                  else if h.toNat ≥ 97 then h.toNat - 87 else h.toNat - 55
                let n := ((hv h1 * 16 + hv h2) * 16 + hv h3) * 16 + hv h4
                match parseStringBody fuel rest2 with
                | some (tail, rem) => some (Char.ofNat n :: tail, rem)
                | none => none
              else none
            | _ => none
          else none
    else
      match parseStringBody fuel rest with
      | some (tail, rem) => some (c :: tail, rem)
      | none => none

/-- Digits prefix of a string. -/
def takeDigits (s : Str) : Str × Str :=
  (s.takeWhile Char.isDigit, s.dropWhile Char.isDigit)

/-- Parse a JSON number lexeme (`-?int(.frac)?((e|E)(+|-)?exp)?`); returns the
raw lexeme and the rest. -/
def parseNumber (s : Str) : Option (Str × Str) :=
  let (sign, s1) := match s with
                    | '-' :: t => (['-'], t)
                    | _ => (([] : Str), s)
  let (intPart, s2) := takeDigits s1
  if intPart = [] then none else
  let (fracPart, s3) :=
    match s2 with
    | '.' :: t =>
      let (d, r) := takeDigits t
      if d = [] then (([] : Str), s2) else ('.' :: d, r)
    | _ => ([], s2)
  let (expPart, s4) :=
    match s3 with
    | e :: t =>
      if e = 'e' ∨ e = 'E' then
        let (sgn, t') := match t with
                         | '+' :: u => (['+'], u)
                         | '-' :: u => (['-'], u)
                         | _ => (([] : Str), t)
        let (d, r) := takeDigits t'
        if d = [] then (([] : Str), s3) else (e :: (sgn ++ d), r)
      else ([], s3)
    | _ => ([], s3)
  some (sign ++ intPart ++ fracPart ++ expPart, s4)

mutual

/-- Parse one JSON value from the front of `s` (whitespace already skipped). -/
def parseValue (fuel : Nat) (s : Str) : Option (Json × Str) :=
  match fuel with
  | 0 => none
  | fuel + 1 =>
    match s with
    | [] => none
    | c :: rest =>
      if c = '"' then
        match parseStringBody (fuel + 1) rest with
        | some (body, rem) => some (.str body, rem)
        | none => none
      else if c = lbrace then
        match (rest.dropWhile jsIsWs) with
        | d :: rem' =>
          if d = rbrace then some (.obj .nil, rem')
          else parseMembers fuel (rest.dropWhile jsIsWs) []
        | [] => none
      else if c = '[' then
        match (rest.dropWhile jsIsWs) with
        | d :: rem' =>
          if d = ']' then some (.arr .nil, rem')
          else parseElements fuel (rest.dropWhile jsIsWs) []
        | [] => none
      else if c = 't' then
        if ['r', 'u', 'e'].isPrefixOf rest then some (.bool true, rest.drop 3) else none
      else if c = 'f' then
        if ['a', 'l', 's', 'e'].isPrefixOf rest then some (.bool false, rest.drop 4) else none
      else if c = 'n' then
        if ['u', 'l', 'l'].isPrefixOf rest then some (.null, rest.drop 3) else none
      else
        match parseNumber s with
        | some (raw, rem) => some (.num raw, rem)
        | none => none

/-- Parse the members of a JSON object, accumulator-first. -/
def parseMembers (fuel : Nat) (s : Str) (acc : List (Str × Json)) :
    Option (Json × Str) :=
  match fuel with
  | 0 => none
  | fuel + 1 =>
    match s with
    | '"' :: rest =>
      match parseStringBody (fuel + 1) rest with
      | some (key, rem) =>
        match rem.dropWhile jsIsWs with
        | ':' :: rem' =>
          match parseValue fuel (rem'.dropWhile jsIsWs) with
          | some (v, rem2) =>
            match rem2.dropWhile jsIsWs with
            | ',' :: rem3 => parseMembers fuel (rem3.dropWhile jsIsWs) (acc ++ [(key, v)])
            | d :: rem3 =>
              if d = rbrace then some (.obj (JsonFields.ofList (acc ++ [(key, v)])), rem3) else none
            | [] => none
          | none => none
        | _ => none
      | none => none
    | _ => none

/-- Parse the elements of a JSON array, accumulator-first. -/
def parseElements (fuel : Nat) (s : Str) (acc : List Json) :
    Option (Json × Str) :=
  match fuel with
  | 0 => none
  | fuel + 1 =>
    match parseValue fuel s with
    | some (v, rem) =>
      match rem.dropWhile jsIsWs with
      | ',' :: rem' => parseElements fuel (rem'.dropWhile jsIsWs) (acc ++ [v])
      | ']' :: rem' => some (.arr (JsonList.ofList (acc ++ [v])), rem')
      | _ => none
    | none => none

end

end Json

/-- JS `JSON.parse`: parse a complete JSON document.  `none` models a thrown
`SyntaxError`. -/
def jsonParse (s : Str) : Option Json :=
  match Json.parseValue (s.length + 1) (s.dropWhile jsIsWs) with
  | some (v, rem) => if rem.dropWhile jsIsWs = [] then some v else none
  | none => none

/-- The message text carried by a JSON `SyntaxError`.  The concrete text is
JS-engine specific; it is abstracted as one constant, since the code only
ever interpolates it into user-visible error strings. -/
def jsonParseErrMsg : Str := "Unexpected token in JSON".data

/-- `MessageUpdateStatus` from `src/src/lib/types/MessageUpdate.ts`. -/
inductive StatusKind where
  | started | error | finished | keepAlive
deriving DecidableEq, Repr

/-- `MessageUpdate` from `src/src/lib/types/MessageUpdate.ts`, the tagged
union of stream events (tool updates inlined as separate constructors). -/
inductive MessageUpdate where
  | status (s : StatusKind) (message : Option Str)
  | title (title : Str)
  | toolCall (uuid name : Str) (parameters : List (Str × Json))
  | toolResult (uuid name : Str) (parameters : List (Str × Json))
      (toolId : Option Str) (outputs : List Str)
  | toolError (uuid : Str) (message : Str)
  | toolEta (uuid : Str) (eta : Nat)
  | stream (token : Str)
  | file (name sha mime : Str)
  | finalAnswer (text : Str) (interrupted : Bool)
  | reasoningStream (token : Str)
  | reasoningStatus (status : Str)
  | routerMetadata (route model : Str)
deriving DecidableEq

/-- Decimal rendering of a natural number (JS template interpolation of a
number index). -/
def natToStr (n : Nat) : Str := (Nat.repr n).data

/-- Message text of the TypeError raised when `servers.find(...)` returns
`undefined` and the result is used anyway; the concrete text is JS-engine
specific and abstracted as one constant. -/
def undefinedServerErrMsg : Str := "Cannot read properties of undefined".data

namespace ConvGroup

/-- Wire-level items enqueued on the response stream.  `.event e` stands for
the line `JSON.stringify(e) + "\n"`; `.padding n` stands for `" ".repeat(n)`. -/
inductive WireItem where
  | event (e : MessageUpdate)
  | padding (n : Nat)
deriving DecidableEq

/-- Persistence calls issued against the conversations collection.
`.saveTitle` is the title-only update, `.saveAll` the full messages+title
update. -/
inductive PersistAction where
  | saveTitle (title : Str)
  | saveAll
deriving DecidableEq

/-- The fields of `messageToWriteTo` touched by the encoder
(`src/unnamed/part_004` lines 536-604); timestamps are not modelled. -/
structure MsgState where
  content : Str
  reasoning : Option Str
  interrupted : Option Bool
  updates : List MessageUpdate
  files : List (Str × Str × Str)
  routerMetadata : Option (Str × Str)
deriving DecidableEq

/-- Conversation state as seen by one turn: the target message plus the
conversation title. -/
structure TurnState where
  msg : MsgState
  title : Str
deriving DecidableEq

/-- One pass of `title.replace(/<\/?think>/gi, "")`: delete every
case-insensitive `<think>`/`</think>` occurrence, scanning left to right. -/
def stripThinkTags : Str → Str
  | [] => []
  | c :: rest =>
    if jsLower ((c :: rest).take 7) = "<think>".data then
      stripThinkTags ((c :: rest).drop 7)
    else if jsLower ((c :: rest).take 8) = "</think>".data then
      stripThinkTags ((c :: rest).drop 8)
    else c :: stripThinkTags rest
termination_by s => s.length
decreasing_by
  all_goals simp only [List.length_drop, List.length_cons]
  all_goals omega

/-- Title sanitisation applied on Title events (part_004 line 558). -/
def sanitizeTitle (t : Str) : Str := jsTrim (stripThinkTags t)

/-- Which events are pushed into the persisted `message.updates` log
(part_004 lines 581-593): everything except Stream tokens, keep-alive
statuses and Reasoning-Stream tokens. -/
def persistedInUpdates : MessageUpdate → Bool
  | .stream _ => false
  | .status .keepAlive _ => false
  | .reasoningStream _ => false
  | _ => true

/-- The `update` closure in the conversation POST handler (part_004 lines
539-604): apply one MessageUpdate to the turn state and produce the wire
items and persistence calls it triggers. -/
def update (isRouter : Bool) (initialContent : Str) (st : TurnState)
    (e : MessageUpdate) : TurnState × List WireItem × List PersistAction :=
  match e with
  | .stream tok =>
    if tok = [] then (st, [], [])
    else
      let st := { st with msg := { st.msg with content := st.msg.content ++ tok } }
      (st, [.event (.stream (jsPadEnd tok 16 (Char.ofNat 0)))], [])
  | _ =>
    let (st, persist) :=
      match e with
      | .reasoningStream tok =>
        ({ st with msg :=
            { st.msg with reasoning := some ((st.msg.reasoning.getD []) ++ tok) } },
         ([] : List PersistAction))
      | .title t =>
        let s := sanitizeTitle t
        ({ st with title := s }, [.saveTitle s])
      | .finalAnswer text interrupted =>
        ({ st with msg :=
            { st.msg with interrupted := some interrupted,
                          content := initialContent ++ text } }, [])
      | .file name sha mime =>
        ({ st with msg := { st.msg with files := st.msg.files ++ [(name, sha, mime)] } }, [])
      | .routerMetadata route model =>
        (if isRouter then
           { st with msg := { st.msg with routerMetadata := some (route, model) } }
         else st, [])
      | _ => (st, [])
    let st :=
      if persistedInUpdates e then
        { st with msg := { st.msg with updates := st.msg.updates ++ [e] } }
      else st
    let wire :=
      [WireItem.event e] ++
        (match e with
         | .finalAnswer _ _ => [WireItem.padding 4096]
         | _ => [])
    (st, wire, persist)

/-- Apply a list of events through `update`, concatenating outputs. -/
def applyEvents (isRouter : Bool) (initialContent : Str) :
    TurnState → List MessageUpdate → TurnState × List WireItem × List PersistAction
  | st, [] => (st, [], [])
  | st, e :: rest =>
    let r1 := update isRouter initialContent st e
    let r2 := applyEvents isRouter initialContent r1.1 rest
    (r2.1, r1.2.1 ++ r2.2.1, r1.2.2 ++ r2.2.2)

/-- The synthetic no-output error message (part_004 line 648). -/
def noOutputMsg : Str := "No output was generated. Something went wrong.".data

/-- The synthetic no-output error event. -/
def noOutputEvent : MessageUpdate := .status .error (some noOutputMsg)

/-- Result of one streamed turn. -/
structure TurnResult where
  state : TurnState
  wire : List WireItem
  persist : List PersistAction
  hasError : Bool
deriving DecidableEq

/-- The stream `start` body (part_004 lines 536-660): `events` are the
updates yielded by `textGeneration` before it returned or threw, `thrown`
the thrown error's message if it threw.  The title-only persist before the
loop, the catch converting a throw to a Status error, the no-output check in
`finally`, and the final full persist are all included. -/
def runTurn (isRouter : Bool) (st0 : TurnState) (events : List MessageUpdate)
    (thrown : Option Str) : TurnResult :=
  let initialContent := st0.msg.content
  let pre : List PersistAction := [.saveTitle st0.title]
  let r1 := applyEvents isRouter initialContent st0 events
  let r2 :=
    match thrown with
    | some m =>
      let u := update isRouter initialContent r1.1 (.status .error (some m))
      (u.1, u.2.1, u.2.2, true)
    | none => (r1.1, [], [], false)
  let r3 :=
    if r2.2.2.2 = false ∧ r2.1.msg.content = initialContent then
      update isRouter initialContent r2.1 noOutputEvent
    else (r2.1, [], [])
  { state := r3.1, wire := r1.2.1 ++ r2.2.1 ++ r3.2.1,
    persist := pre ++ r1.2.2 ++ r2.2.2.1 ++ r3.2.2 ++ [.saveAll],
    hasError := r2.2.2.2 }

end ConvGroup

namespace TreeOps

/-- A stored message, as relevant to the delete-message handler.  Legacy
documents may lack the `ancestors` field, hence the `Option`. -/
structure DbMessage where
  id : Nat
  ancestors : Option (List Nat)
  children : List Nat
  content : Str
deriving DecidableEq

/-- The filter predicate of the delete handler (part_004 lines 952-959): a
message survives when it is not the target and the target is not among its
ancestors (messages without an `ancestors` field are dropped by the JS
truthiness test). -/
def survives (target : Nat) (m : DbMessage) : Bool :=
  !(m.id == target) &&
    (match m.ancestors with
     | some a => !(a.contains target)
     | none => false)

/-- The map step of the delete handler (lines 960-968): drop the target from
the children list when present. -/
def stripChild (target : Nat) (m : DbMessage) : DbMessage :=
  if target ∈ m.children then
    { m with children := m.children.filter fun c => !(c == target) }
  else m

/-- The DELETE `/conversations/:id/message/:messageId` handler (part_004
lines 945-980): `none` models the thrown "Message not found". -/
def deleteMessage (messages : List DbMessage) (target : Nat) :
    Option (List DbMessage) :=
  if target ∈ messages.map (fun m => m.id) then
    some ((messages.filter (survives target)).map (stripChild target))
  else none

end TreeOps

namespace Gen

/-- `model.reasoning` configurations (`generate.ts`).  The regex strategy's
`RegExp#exec`-then-group-1 is abstracted as a function from the buffered
reasoning to the optional captured group. -/
inductive ReasoningCfg where
  | tokens (beginToken endToken : Str)
  | regex (exec : Str → Option Str)
  | summarize

/-- Static configuration consumed by `generate`.  `doneText` is the
wall-clock dependent `"Done in Ns."` status string, opaque to every claim.
`summarizeResult` is the outcome of the auxiliary summarization call
(`generateFromDefaultEndpoint` is not under src/; per the spec it yields no
events and returns the text, or throws). -/
structure GenCfg where
  reasoning : Option ReasoningCfg
  stop : List Str
  reasoningSummary : Bool
  doneText : Str
  summarizeResult : Except Str Str

/-- One entry of `output.toolCallDeltas`. -/
structure ToolCallDelta where
  index : Nat
  id : Option Str
  name : Option Str
  argumentsChunk : Option Str
deriving DecidableEq

/-- `output.toolResultDelta`. -/
structure ToolResultDelta where
  id : Option Str
  name : Option Str
  contentChunk : Option Str
deriving DecidableEq

/-- One element of the provider token stream: `TextGenerationStreamOutput`
plus the side channels attached by `openAIChatToTextGenerationStream`.
`asyncStatus` is ghost nondeterminism standing for the fire-and-forget
summarization promise resolving (and assigning `status`) before this
iteration. -/
structure ProviderOutput where
  tokenText : Str
  tokenSpecial : Bool
  generatedText : Option Str
  reasoningDelta : Option Str := none
  toolCallDeltas : List ToolCallDelta := []
  toolResultDelta : Option ToolResultDelta := none
  asyncStatus : Option Str := none
deriving DecidableEq

/-- Per-uuid tool-argument buffer (`toolArgBuffers`). -/
structure ArgBuf where
  name : Option Str
  args : Str
  parsedPublished : Bool
  callPublished : Bool
deriving DecidableEq

/-- The mutable loop state of `generate`. -/
structure GenState where
  reasoning : Bool
  reasoningBuffer : Str
  status : Str
  toolArgBuffers : List (Str × ArgBuf)
deriving DecidableEq

/-- Look up a tool-argument buffer by uuid. -/
def lookupBuf (bufs : List (Str × ArgBuf)) (uuid : Str) : Option ArgBuf :=
  (bufs.find? fun p => p.1 == uuid).map fun p => p.2

/-- Store a tool-argument buffer under a uuid (JS object semantics:
in-place update, insertion order preserved). -/
def setBuf (bufs : List (Str × ArgBuf)) (uuid : Str) (b : ArgBuf) :
    List (Str × ArgBuf) :=
  if (bufs.find? fun p => p.1 == uuid).isSome then
    bufs.map fun p => if p.1 == uuid then (p.1, b) else p
  else bufs ++ [(uuid, b)]

/-- JS `\w`. -/
def isWordChar (c : Char) : Bool := c.isAlphanum || c = '_'

/-- The word alternatives of the tool-result error sniffing regex. -/
def errorWords : List Str :=
  ["error".data, "failed".data, "exception".data, "traceback".data]

/-- `/(^|\b)(error|failed|exception|traceback)\b/i.test(chunk)`
(generate.ts line 126). -/
def errorRegexTest (s : Str) : Bool :=
  (List.range s.length).any fun i =>
    errorWords.any fun w =>
      w.isPrefixOf (jsLower (s.drop i)) &&
      (i == 0 ||
        (match s.get? (i - 1) with
         | some c => !isWordChar c
         | none => true)) &&
      (match s.get? (i + w.length) with
       | some c => !isWordChar c
       | none => true)

/-- The reasoningDelta side channel (generate.ts lines 65-74). -/
def applyReasoningDelta (st : GenState) (o : ProviderOutput) :
    GenState × List MessageUpdate :=
  match o.reasoningDelta with
  | some d =>
    if d ≠ [] then
      ({ st with reasoningBuffer := st.reasoningBuffer ++ d }, [.reasoningStream d])
    else (st, [])
  | none => (st, [])

/-- Publishing the initial Call update once the name is known (generate.ts
lines 88-96; `if (!buf.callPublished && buf.name)` — JS truthiness). -/
def publishCall (uuid : Str) (buf : ArgBuf) : ArgBuf × List MessageUpdate :=
  match buf.name with
  | some n =>
    if buf.callPublished = false ∧ n ≠ [] then
      ({ buf with callPublished := true }, [MessageUpdate.toolCall uuid n []])
    else (buf, [])
  | none => (buf, [])

/-- Publishing the parsed-parameters Call update once the streamed argument
chunks form a complete JSON object (generate.ts lines 98-114). -/
def publishParsed (uuid : Str) (buf : ArgBuf) : ArgBuf × List MessageUpdate :=
  if buf.parsedPublished = false then
    match jsonParse buf.args with
    | some (.obj fields) =>
      ({ buf with parsedPublished := true },
       [MessageUpdate.toolCall uuid
          (match buf.name with | some n => n | none => "tool".data) fields.toList])
    | _ => (buf, [])
  else (buf, [])

/-- One tool-call delta (generate.ts lines 81-115). -/
def applyToolCallDelta (st : GenState) (d : ToolCallDelta) :
    GenState × List MessageUpdate :=
  let uuid :=
    match d.id with
    | some i => i
    | none =>
      natToStr d.index ++ "-".data ++ (match d.name with | some n => n | none => "tool".data)
  let buf0 := (lookupBuf st.toolArgBuffers uuid).getD ⟨none, [], false, false⟩
  let buf1 :=
    match d.name with
    | some n => if n ≠ [] then { buf0 with name := some n } else buf0
    | none => buf0
  let buf2 :=
    match d.argumentsChunk with
    | some s => { buf1 with args := buf1.args ++ s }
    | none => buf1
  let p1 := publishCall uuid buf2
  let p2 := publishParsed uuid p1.1
  ({ st with toolArgBuffers := setBuf st.toolArgBuffers uuid p2.1 }, p1.2 ++ p2.2)

/-- All tool-call deltas of one output, in order (the `for` loop of lines
81-115). -/
def applyToolCallDeltas (st : GenState) : List ToolCallDelta →
    GenState × List MessageUpdate
  | [] => (st, [])
  | d :: rest =>
    let r1 := applyToolCallDelta st d
    let r2 := applyToolCallDeltas r1.1 rest
    (r2.1, r1.2 ++ r2.2)

/-- The toolResultDelta side channel (generate.ts lines 118-148). -/
def applyToolResultDelta (o : ProviderOutput) : List MessageUpdate :=
  match o.toolResultDelta with
  | some trd =>
    let fallbackName := match trd.name with | some n => n | none => "tool".data
    let uuid :=
      match trd.id with
      | some i => i
      | none => fallbackName ++ "-result".data
    let chunk := match trd.contentChunk with | some c => c | none => []
    if chunk ≠ [] then
      if errorRegexTest chunk then [.toolError uuid chunk]
      else [.toolResult uuid fallbackName [] trd.id [chunk]]
    else []
  | none => []

/-- Tokens-mode final-answer computation (generate.ts lines 202-217): the
begin/end indices are computed on the reasoning buffer and then used to
slice the generated text. -/
def computeTokensFinalAnswer (beginToken endToken buffer text : Str) : Str :=
  let beginIndex : Int := if beginToken ≠ [] then jsIndexOf buffer beginToken else 0
  let endIndex : Int := jsLastIndexOf buffer endToken
  if beginIndex ≠ -1 ∧ endIndex ≠ -1 then
    text.take beginIndex.toNat ++ text.drop (endIndex + endToken.length).toNat
  else text

/-- The completion branch (generate.ts lines 150-225): stop-token stripping,
per-strategy final answer extraction, and the FinalAnswer event. -/
def finalAnswerEvents (cfg : GenCfg) (st : GenState) (o : ProviderOutput)
    (g : Str) : List MessageUpdate :=
  let interrupted0 := !o.tokenSpecial && !(cfg.stop.contains o.tokenText)
  let (text, interrupted) :=
    cfg.stop.foldl
      (fun acc stopToken =>
        if jsEndsWith acc.1 stopToken then
          (acc.1.take (acc.1.length - stopToken.length), false)
        else acc)
      (jsTrimEnd g, interrupted0)
  let (preEvents, answer) :=
    match cfg.reasoning with
    | some (.regex exec) => ([], (exec st.reasoningBuffer).getD text)
    | some .summarize =>
      match cfg.summarizeResult with
      | .ok summary =>
        ([MessageUpdate.reasoningStatus "Summarizing reasoning...".data,
          MessageUpdate.reasoningStatus cfg.doneText], summary)
      | .error _ =>
        ([MessageUpdate.reasoningStatus "Summarizing reasoning...".data], text)
    | some (.tokens b e) => ([], computeTokensFinalAnswer b e st.reasoningBuffer text)
    | none => ([], text)
  preEvents ++ [.finalAnswer answer interrupted]

/-- Result of processing one provider output.  `checked` is instrumentation
recording that the abort check at the bottom of the loop body was reached;
`stop` records that the loop breaks after this output. -/
structure StepOut where
  state : GenState
  events : List MessageUpdate
  checked : Bool
  stop : Bool

/-- `date && date > promptedAt` against the abort registry value. -/
def abortNewer (abortTime : Option Nat) (promptedAt : Nat) : Bool :=
  match abortTime with
  | some d => promptedAt < d
  | none => false

/-- JS truthiness of the optional `generated_text` (the empty string is
falsy). -/
def truthyStr (s : Option Str) : Bool :=
  match s with
  | some g => !g.isEmpty
  | none => false

/-- The token path of the loop body — everything after the side channels
and the completion branch (generate.ts lines 227-327). -/
def tokenPhase (cfg : GenCfg) (abortTime : Option Nat) (promptedAt : Nat)
    (st : GenState) (side : List MessageUpdate) (o : ProviderOutput) : StepOut :=
  let isBegin : Bool :=
    match cfg.reasoning with
    | some (.tokens b _) => decide (o.tokenText = b)
    | _ => false
  let isEnd : Bool :=
    match cfg.reasoning with
    | some (.tokens _ e) => decide (o.tokenText = e)
    | _ => false
  if isBegin then
    { state := { st with reasoning := true,
                         reasoningBuffer := st.reasoningBuffer ++ o.tokenText },
      events := side, checked := false, stop := false }
  else if isEnd then
    { state := { st with reasoning := false,
                         reasoningBuffer := st.reasoningBuffer ++ o.tokenText },
      events := side ++ [.reasoningStatus cfg.doneText], checked := false, stop := false }
  else if o.tokenSpecial then
    { state := st, events := side, checked := false, stop := false }
  else if st.reasoning then
    let st := { st with reasoningBuffer := st.reasoningBuffer ++ o.tokenText }
    let splitIdx : Option Nat :=
      match cfg.reasoning with
      | some (.tokens _ e) =>
        if jsLastIndexOf st.reasoningBuffer e ≠ -1 then
          some (jsLastIndexOf st.reasoningBuffer e).toNat
        else none
      | _ => none
    match splitIdx, cfg.reasoning with
    | some endTokenIndex, some (.tokens _ e) =>
      let textBuffer := st.reasoningBuffer.drop (endTokenIndex + e.length)
      let st := { st with
        reasoningBuffer := st.reasoningBuffer.take (endTokenIndex + e.length + 1),
        reasoning := false }
      { state := st,
        events := side ++ [.reasoningStream o.tokenText, .stream textBuffer,
                           .reasoningStatus cfg.doneText],
        checked := false, stop := false }
    | _, _ =>
      let (st, statusEvents) :=
        if st.status ≠ [] then
          ({ st with status := [] }, [MessageUpdate.reasoningStatus st.status])
        else (st, [])
      { state := st,
        events := side ++ (statusEvents ++ [.reasoningStream o.tokenText]),
        checked := true, stop := abortNewer abortTime promptedAt }
  else
    { state := st, events := side ++ [.stream o.tokenText],
      checked := true, stop := abortNewer abortTime promptedAt }

/-- One iteration of the `for await` loop of `generate`. -/
def genStep (cfg : GenCfg) (abortTime : Option Nat) (promptedAt : Nat)
    (st : GenState) (o : ProviderOutput) : StepOut :=
  let st0 :=
    match o.asyncStatus with
    | some s => { st with status := s }
    | none => st
  let r1 := applyReasoningDelta st0 o
  let r2 := applyToolCallDeltas r1.1 o.toolCallDeltas
  let evs3 := applyToolResultDelta o
  let side := r1.2 ++ r2.2 ++ evs3
  if truthyStr o.generatedText then
    { state := r2.1,
      events := side ++ finalAnswerEvents cfg r2.1 o (o.generatedText.getD []),
      checked := false, stop := false }
  else tokenPhase cfg abortTime promptedAt r2.1 side o

/-- Result of running the loop over a list of outputs. -/
structure RunOut where
  state : GenState
  events : List MessageUpdate
  stopped : Bool

/-- The `for await` loop of `generate`: process outputs in order, breaking
when the abort check fires. -/
def genRun (cfg : GenCfg) (abortTime : Option Nat) (promptedAt : Nat) :
    GenState → List ProviderOutput → RunOut
  | st, [] => ⟨st, [], false⟩
  | st, o :: rest =>
    let r := genStep cfg abortTime promptedAt st o
    if r.stop then ⟨r.state, r.events, true⟩
    else
      let r2 := genRun cfg abortTime promptedAt r.state rest
      ⟨r2.state, r.events ++ r2.events, r2.stopped⟩

/-- Whether `generate` starts in reasoning mode (generate.ts lines 39-45). -/
def initialReasoning (cfg : GenCfg) : Bool :=
  match cfg.reasoning with
  | some (.regex _) => true
  | some .summarize => true
  | some (.tokens b _) => b.isEmpty
  | none => false

/-- The initial loop state. -/
def initialState (cfg : GenCfg) : GenState :=
  ⟨initialReasoning cfg, [], [], []⟩

/-- The prelude status event (generate.ts lines 48-54). -/
def preludeEvents (cfg : GenCfg) : List MessageUpdate :=
  if initialReasoning cfg then [.reasoningStatus "Started reasoning...".data] else []

/-- `generate` (src/src/lib/server/textGeneration/generate.ts): the list of
MessageUpdates yielded for one provider output stream. -/
def generate (cfg : GenCfg) (abortTime : Option Nat) (promptedAt : Nat)
    (outputs : List ProviderOutput) : List MessageUpdate :=
  preludeEvents cfg ++ (genRun cfg abortTime promptedAt (initialState cfg) outputs).events

end Gen

namespace Oai

/-- One configured MCP server (only the name matters to the hook logic). -/
structure McpServer where
  name : Str
deriving DecidableEq

/-- Message roles. -/
inductive Role where
  | system | user | assistant
deriving DecidableEq

/-- An endpoint message (`EndpointMessage`): sender role and content. -/
structure EndpointMessage where
  role : Role
  content : Str
deriving DecidableEq

/-- What the chat-completions endpoint closure returns: either the
single-output wrapper around one completion, or the streaming wrapper
around the provider stream. -/
inductive EndpointResult where
  | single (content : Str)
  | stream (outputs : List Gen.ProviderOutput)
deriving DecidableEq

/-- `openAIChatToTextGenerationSingle`
(src/src/lib/server/endpoints/openai/openAIChatToTextGenerationStream.ts
lines 134-151): one output carrying the whole content as token text and as
`generated_text`. -/
def openAIChatToTextGenerationSingle (content : Str) : List Gen.ProviderOutput :=
  [{ tokenText := content, tokenSpecial := false, generatedText := some content }]

/-- The provider outputs the caller of the endpoint iterates over. -/
def endpointOutputs : EndpointResult → List Gen.ProviderOutput
  | .single c => openAIChatToTextGenerationSingle c
  | .stream outs => outs

/-- Char class `[a-z0-9_-]` under the regex `i` flag. -/
def isServerChar (c : Char) : Bool :=
  c.isAlpha || c.isDigit || c = '_' || c = '-'

/-- Char class `[a-zA-Z0-9._-]`. -/
def isToolChar (c : Char) : Bool :=
  c.isAlpha || c.isDigit || c = '.' || c = '_' || c = '-'

/-- The inline-command pattern
`/^\/mcp\s+([a-z0-9_-]+)\.([a-zA-Z0-9._-]+)(?:\s+([\s\S]*))?$/i`
(part_010 line 132).  The character classes exclude `.` and whitespace
respectively, so greedy runs followed by the required delimiter implement
the backtracking regex exactly. -/
def inlineMatch (content : Str) : Option (Str × Str × Option Str) :=
  if jsLower (content.take 4) = "/mcp".data then
    let r1 := content.drop 4
    if r1.takeWhile jsIsWs = [] then none else
    let r2 := r1.dropWhile jsIsWs
    let server := r2.takeWhile isServerChar
    if server = [] then none else
    match r2.dropWhile isServerChar with
    | '.' :: r3 =>
      let tool := r3.takeWhile isToolChar
      if tool = [] then none else
      let r4 := r3.dropWhile isToolChar
      match r4 with
      | [] => some (server, tool, none)
      | _ =>
        if r4.takeWhile jsIsWs = [] then none
        else some (server, tool, some (r4.dropWhile jsIsWs))
    | _ => none
  else none

/-- External collaborators of the endpoint, as oracles: the MCP tool
invocation, the MCP tool listing (`getOpenAiToolsForMcp` — function names
and the name-to-(server,tool) mapping), the non-streaming completion (the
first returned tool call, if any, plus the message content), and the
provider stream / non-streaming content of the normal path.  `Except.error`
models a thrown exception. -/
structure OaiOracles where
  callTool : Str → Str → Json → Except Str Str
  getTools : Except Str (List Str × (Str → Option (Str × Str)))
  completion : Except Str (Option (Str × Str) × Str)
  providerStream : List Gen.ProviderOutput
  nonStreamContent : Str

/-- The inline MCP hook (part_010 lines 122-222).  `some r` means the hook
returned the single-completion result `r`; `none` means it fell through. -/
def inlineHook (servers : List McpServer) (oc : OaiOracles)
    (messages : List EndpointMessage) : Option EndpointResult :=
  if servers = [] then none else
  match messages.getLast? with
  | none => none
  | some last =>
    if last.role = .user then
      match inlineMatch last.content with
      | none => none
      | some (serverName, toolName, raw) =>
        match servers.find? fun s => s.name == serverName with
        | none => some (.single ("Unknown MCP server: ".data ++ serverName))
        | some server =>
          let rawStr := match raw with | some r => r | none => []
          if rawStr ≠ [] ∧ jsTrim rawStr ≠ [] then
            match jsonParse rawStr with
            | none => some (.single ("Invalid JSON args: ".data ++ jsonParseErrMsg))
            | some args =>
              match oc.callTool server.name toolName args with
              | .error m => some (.single ("MCP error: ".data ++ m))
              | .ok out => some (.single out)
          else
            match oc.callTool server.name toolName (.obj .nil) with
            | .error m => some (.single ("MCP error: ".data ++ m))
            | .ok out => some (.single out)
    else none

/-- The model-driven tool-call block (part_010 lines 224-375).  Returns the
optional short-circuit result and whether an OpenAI completion call was
issued; `none` falls through to the normal flow (including when the block
threw and was swallowed by its catch). -/
def modelDrivenBlock (servers : List McpServer) (oc : OaiOracles) :
    Option EndpointResult × Bool :=
  if servers = [] then (none, false) else
  match oc.getTools with
  | .error _ => (none, false)
  | .ok (tools, mapping) =>
    if tools = [] then (none, false) else
    match oc.completion with
    | .error _ => (none, true)
    | .ok (callOpt, msgContent) =>
      match callOpt with
      | none => (some (.single msgContent), true)
      | some (fnName, rawArgs) =>
        match mapping fnName with
        | none => (some (.single ("Unknown MCP function: ".data ++ fnName)), true)
        | some (serverName, toolName) =>
          let invoke (args : Json) : Option EndpointResult × Bool :=
            match servers.find? fun s => s.name == serverName with
            | none =>
              -- `servers.find(...)!` is undefined; callMcpTool throws inside
              -- the try, surfacing as an "MCP error" single completion
              (some (.single ("MCP error: ".data ++ undefinedServerErrMsg)), true)
            | some server =>
              match oc.callTool server.name toolName args with
              | .ok out => (some (.single out), true)
              | .error m => (some (.single ("MCP error: ".data ++ m)), true)
          if jsTrim rawArgs ≠ [] then
            match jsonParse rawArgs with
            | none => (some (.single ("Invalid JSON args: ".data ++ jsonParseErrMsg)), true)
            | some args => invoke args
          else invoke (.obj .nil)

/-- The chat-completions endpoint closure of `endpointOai` (part_010 lines
120-459): inline hook, then model-driven tool calls, then the normal
streaming (or non-streaming) completion.  Returns the result together with
whether any model completion was requested. -/
def endpointOaiChat (servers : List McpServer) (oc : OaiOracles)
    (streamingSupported : Bool) (messages : List EndpointMessage) :
    EndpointResult × Bool :=
  match inlineHook servers oc messages with
  | some res => (res, false)
  | none =>
    match modelDrivenBlock servers oc with
    | (some res, llm) => (res, llm)
    | (none, _) =>
      if streamingSupported then (.stream oc.providerStream, true)
      else (.single oc.nonStreamContent, true)

end Oai

namespace GenMcp

/-- External collaborators of the part_008 `generate` MCP path, as oracles:
the tool listing, the non-streaming completion's first tool call, the tool
invocation, the follow-up synthesis completion (`generateFromDefaultEndpoint`
is not under src/; per the spec it yields no events and returns the text,
or throws), and the generated uuid. -/
structure McpOracles where
  getTools : Except Str (List Str × (Str → Option (Str × Str)))
  completion : Except Str (Option (Str × Str))
  callTool : Except Str Str
  synthesis : Except Str Str
  uuid : Str

/-- `parseArgs` (part_008 lines 248-251): JSON.parse with fallback to the
empty object. -/
def parseArgs (raw : Str) : Json :=
  if jsTrim raw = [] then .obj .nil
  else
    match jsonParse raw with
    | some v => v
    | none => .obj .nil

/-- `toPrimitive` (part_008 lines 255-258). -/
def primitiveJson : Json → Bool
  | .str _ => true
  | .num _ => true
  | .bool _ => true
  | _ => false

/-- `parametersClean` (part_008 lines 259-265): the primitive-valued entries
of the parsed arguments.  JS `typeof x === "object"` also admits arrays,
whose `Object.entries` are index-keyed. -/
def parametersClean (args : Json) : List (Str × Json) :=
  match args with
  | .obj fields => fields.toList.filter fun p => primitiveJson p.2
  | .arr elems =>
    ((elems.toList.enum.map fun p => (natToStr p.1, p.2)).filter fun p => primitiveJson p.2)
  | _ => []

/-- Text of the unknown-function error (part_008 lines 287, 291). -/
def unknownFnMsg (fn : Str) : Str := "Unknown MCP function: ".data ++ fn

/-- The MCP tool path of the part_008 `generate` (lines 171-356): `some
(events, invocations)` when the path handled the turn (with the number of
`callMcpTool` invocations it performed), `none` when generation falls
through to the normal token loop. -/
def mcpPath (servers : List Oai.McpServer) (oc : McpOracles) :
    Option (List MessageUpdate × Nat) :=
  if servers = [] then none else
  match oc.getTools with
  | .error _ => none
  | .ok (tools, mapping) =>
    if tools = [] then none else
    match oc.completion with
    | .error _ => none
    | .ok none => none
    | .ok (some (fnName, rawArgs)) =>
      let params := parametersClean (parseArgs rawArgs)
      let callEvents :=
        [MessageUpdate.toolCall oc.uuid fnName params,
         MessageUpdate.toolEta oc.uuid 10]
      match mapping fnName with
      | none =>
        some (callEvents ++
          [.toolError oc.uuid (unknownFnMsg fnName),
           .finalAnswer (unknownFnMsg fnName) false], 0)
      | some (serverName, _toolName) =>
        match servers.find? fun s => s.name == serverName with
        | none =>
          -- `servers.find(...)!` is undefined inside the try: callMcpTool
          -- throws, landing in the catch below
          some (callEvents ++
            [.toolError oc.uuid undefinedServerErrMsg,
             .finalAnswer ("MCP error: ".data ++ undefinedServerErrMsg) false], 1)
        | some _ =>
          match oc.callTool with
          | .error m =>
            some (callEvents ++
              [.toolError oc.uuid m,
               .finalAnswer ("MCP error: ".data ++ m) false], 1)
          | .ok out =>
            let resEvt := MessageUpdate.toolResult oc.uuid fnName params none [out]
            match oc.synthesis with
            | .ok s => some (callEvents ++ [resEvt, .finalAnswer s false], 1)
            | .error m =>
              some (callEvents ++
                [resEvt, .toolError oc.uuid m,
                 .finalAnswer ("MCP error: ".data ++ m) false], 1)

/-- The part_008 variant of `generate` (lines 158-570): the MCP tool path,
falling through to the token loop.  On outputs without delta side channels
the part_008 loop coincides with the loop of `Gen.generate`, which is
reused here. -/
def generate (servers : List Oai.McpServer) (oc : McpOracles)
    (cfg : Gen.GenCfg) (abortTime : Option Nat) (promptedAt : Nat)
    (outputs : List Gen.ProviderOutput) : List MessageUpdate × Nat :=
  match mcpPath servers oc with
  | some r => r
  | none => (Gen.generate cfg abortTime promptedAt outputs, 0)

end GenMcp

namespace Merge

/-- The Started status event (part_008 lines 40-43). -/
def startedEvent : MessageUpdate := .status .started none

/-- The keep-alive status event (part_008 lines 16-19). -/
def keepAliveEvent : MessageUpdate := .status .keepAlive none

/-- `keepAlive` (part_008 lines 14-22): one keep-alive event per timer tick
until the done signal aborts; `n` is the number of ticks taken. -/
def keepAliveEvents (n : Nat) : List MessageUpdate :=
  List.replicate n keepAliveEvent

/-- Modelled from the spec: `generateTitleForConversation` is not under
src/.  Per spec section 4.2 the title task is best-effort and per section 6
it emits Title events only; it is modelled as emitting at most one Title
event (none when it fails or is skipped). -/
def titleEvents : Option Str → List MessageUpdate
  | some t => [.title t]
  | none => []

/-- The three merged producers. -/
inductive Producer where
  | titleTask | mainTask | heartbeat
deriving DecidableEq

/-- Modelled from the spec: `mergeAsyncGenerators` is not under src/.  Per
spec section 5 the merge is a fixed fan-in that drains whichever producer
has a ready event next, preserving per-producer order; the schedule lists
which producer is drained at each step (an exhausted producer yields
nothing), and whatever remains afterwards drains in producer order. -/
def mergeSchedule : List Producer → List MessageUpdate → List MessageUpdate →
    List MessageUpdate → List MessageUpdate
  | [], a, b, c => a ++ b ++ c
  | .titleTask :: s, a, b, c =>
    match a with
    | [] => mergeSchedule s [] b c
    | e :: a' => e :: mergeSchedule s a' b c
  | .mainTask :: s, a, b, c =>
    match b with
    | [] => mergeSchedule s a [] c
    | e :: b' => e :: mergeSchedule s a b' c
  | .heartbeat :: s, a, b, c =>
    match c with
    | [] => mergeSchedule s a b []
    | e :: c' => e :: mergeSchedule s a b c'

/-- The merged stream of one `textGeneration` turn (part_008 lines 24-60).
The main producer (`textGenerationWithoutTitle`) yields Started and then
`generate`'s events; per spec section 5 the scheduling guarantees exactly
that the Started event is delivered before anything from the other
producers, so the merged stream is Started followed by an arbitrary
schedule-driven interleaving of the remainders. -/
def textGenerationMerged (sched : List Producer) (title : Option Str)
    (ticks : Nat) (cfg : Gen.GenCfg) (abortTime : Option Nat)
    (promptedAt : Nat) (outputs : List Gen.ProviderOutput) :
    List MessageUpdate :=
  startedEvent ::
    mergeSchedule sched (titleEvents title)
      (Gen.generate cfg abortTime promptedAt outputs)
      (keepAliveEvents ticks)

end Merge

/-- Is the event a Status event of any kind? -/
def isStatusEvent : MessageUpdate → Bool
  | .status _ _ => true
  | _ => false

/-- Is the event `Status{started}`? -/
def isStartedEvent : MessageUpdate → Bool
  | .status .started _ => true
  | _ => false

/-- Is the event a Stream token? -/
def isStreamEvent : MessageUpdate → Bool
  | .stream _ => true
  | _ => false

/-- Is the event a FinalAnswer? -/
def isFinalAnswerEvent : MessageUpdate → Bool
  | .finalAnswer _ _ => true
  | _ => false

/-- A reasoning-free model configuration used by concrete evaluations
(`doneText` instantiates the wall-clock status string). -/
def plainCfg : Gen.GenCfg :=
  { reasoning := none
    stop := []
    reasoningSummary := false
    doneText := "Done in 1s.".data
    summarizeResult := .error "unused".data }

/-- A tokens-mode reasoning configuration with think markers. -/
def thinkCfg : Gen.GenCfg :=
  { plainCfg with reasoning := some (.tokens "<think>".data "</think>".data) }

/-- A plain provider token output. -/
def tokOut (s : Str) : Gen.ProviderOutput :=
  { tokenText := s, tokenSpecial := false, generatedText := none }

/-- The closing provider output carrying the full generated text. -/
def finOut (s : Str) : Gen.ProviderOutput :=
  { tokenText := [], tokenSpecial := true, generatedText := some s }

/-- A configured MCP server named `server`. -/
def exServer : Oai.McpServer := { name := "server".data }

/-- Concrete endpoint oracles: no tools listed, a two-output provider
stream, and collaborators that are never consulted on the paths
evaluated. -/
def exOracles : Oai.OaiOracles :=
  { callTool := fun _ _ _ => .error "never".data
    getTools := .ok ([], fun _ => none)
    completion := .error "never".data
    providerStream := [tokOut "hi".data, finOut "hi".data]
    nonStreamContent := "ns".data }

/-- A configured MCP server named `s` for the part_008 tool path. -/
def exServerS : Oai.McpServer := { name := "s".data }

/-- Concrete part_008 tool-path oracles: one listed tool `fn` mapping to
server `s`, a completion that calls it, a successful invocation, and a
synthesis call that throws. -/
def exMcpOracles : GenMcp.McpOracles :=
  { getTools := .ok (["fn".data],
      fun n => if n = "fn".data then some ("s".data, "t".data) else none)
    completion := .ok (some ("fn".data, []))
    callTool := .ok "out".data
    synthesis := .error "boom".data
    uuid := "u1".data }

/-- The same oracles with a successful synthesis call. -/
def exMcpOraclesOk : GenMcp.McpOracles :=
  { exMcpOracles with synthesis := .ok "synth".data }

/-- A three-message conversation: system root, one user child, one
assistant grandchild. -/
def exConvMessages : List TreeOps.DbMessage :=
  [{ id := 0, ancestors := some [], children := [1], content := [] },
   { id := 1, ancestors := some [0], children := [2], content := "q".data },
   { id := 2, ancestors := some [0, 1], children := [], content := "a".data }]

/-- C10: a Stream update whose token is the empty string is dropped whole by
the encoder: no wire line is written, no persistence call is issued, and the
turn state — content, reasoning, interrupted, the persisted updates log,
files, router metadata and title — is exactly unchanged. -/
theorem c10_empty_stream_dropped (isRouter : Bool) (init : Str)
    (st : ConvGroup.TurnState) :
    ConvGroup.update isRouter init st (.stream []) = (st, [], []) := by
  simp [ConvGroup.update]

/-- C9: the encoder pads a (non-empty) Stream token with NUL to the fixed
minimum width 16 before writing it, and writes a 4096-space padding block
immediately after every FinalAnswer line. -/
theorem c9_encoder_padding (isRouter : Bool) (init : Str)
    (st st' : ConvGroup.TurnState) (tok text : Str) (i : Bool)
    (htok : tok ≠ []) :
    (ConvGroup.update isRouter init st (.stream tok)).2.1 =
      [.event (.stream (jsPadEnd tok 16 (Char.ofNat 0)))] ∧
    (jsPadEnd tok 16 (Char.ofNat 0)).length = max tok.length 16 ∧
    (ConvGroup.update isRouter init st' (.finalAnswer text i)).2.1 =
      [.event (.finalAnswer text i), .padding 4096] := by
  refine ⟨?_, ?_, ?_⟩
  · simp [ConvGroup.update, htok]
  · simp [jsPadEnd]; omega
  · simp [ConvGroup.update]

/-- Witness for C9 at a concrete one-character token and final answer. -/
theorem c9_encoder_padding_witness :
    (("a".data : Str) ≠ []) ∧
    ((ConvGroup.update false [] ⟨⟨[], none, none, [], [], none⟩, []⟩
        (.stream "a".data)).2.1 =
      [.event (.stream (jsPadEnd "a".data 16 (Char.ofNat 0)))] ∧
    (jsPadEnd "a".data 16 (Char.ofNat 0)).length = max "a".data.length 16 ∧
    (ConvGroup.update false [] ⟨⟨[], none, none, [], [], none⟩, []⟩
        (.finalAnswer "ok".data true)).2.1 =
      [.event (.finalAnswer "ok".data true), .padding 4096]) :=
  ⟨by decide,
   c9_encoder_padding false [] ⟨⟨[], none, none, [], [], none⟩, []⟩
     ⟨⟨[], none, none, [], [], none⟩, []⟩ "a".data "ok".data true (by decide)⟩

/-- C1 (code-bug evaluation): running `generate` in tokens mode with begin
token `<think>` and end token `</think>` on the provider stream
`["a","<think>","b","c","</think>","d"]` (full generated text
`a<think>bc</think>d`).  Reasoning.Stream receives only the interior tokens
`b`,`c`, and the FinalAnswer text is `">d"` — not `"ad"`: the slice indices
are computed on the reasoning buffer but applied to the full generated
text, dropping the pre-reasoning `"a"` and leaking `">"`. -/
theorem c1_tokens_mode_eval :
    Gen.generate thinkCfg none 0
      [tokOut "a".data, tokOut "<think>".data, tokOut "b".data, tokOut "c".data,
       tokOut "</think>".data, tokOut "d".data, finOut "a<think>bc</think>d".data] =
    [.stream "a".data, .reasoningStream "b".data, .reasoningStream "c".data,
     .reasoningStatus "Done in 1s.".data, .stream "d".data,
     .finalAnswer ">d".data false] := by decide

/-- C3 counterexample: with an abort timestamp (5) newer than promptedAt
(3), `generate` stops after the first content token and its event stream
simply ends — it contains no FinalAnswer at all, hence no FinalAnswer with
interrupted = true, contrary to the claim. -/
theorem c3_abort_counterexample :
    Gen.abortNewer (some 5) 3 = true ∧
    Gen.generate plainCfg (some 5) 3
        [tokOut "x".data, tokOut "y".data, tokOut "z".data] =
      [.stream "x".data] ∧
    (Gen.generate plainCfg (some 5) 3
        [tokOut "x".data, tokOut "y".data, tokOut "z".data]).countP
      isFinalAnswerEvent = 0 := by decide

/-- C8 counterexample: in tokens mode with twelve characters of answer text
before the begin token, the token `"bb"` is emitted as a Reasoning.Stream
event and appears again inside the FinalAnswer text `"k>bb</think>"` — the
buffer-relative indices leak reasoning content into the final answer. -/
theorem c8_duplication_counterexample :
    (MessageUpdate.reasoningStream "bb".data) ∈
      Gen.generate thinkCfg none 0
        [tokOut "aaaaaaaaaaaa".data, tokOut "<think>".data, tokOut "bb".data,
         tokOut "</think>".data, finOut "aaaaaaaaaaaa<think>bb</think>".data] ∧
    (MessageUpdate.finalAnswer "k>bb</think>".data false) ∈
      Gen.generate thinkCfg none 0
        [tokOut "aaaaaaaaaaaa".data, tokOut "<think>".data, tokOut "bb".data,
         tokOut "</think>".data, finOut "aaaaaaaaaaaa<think>bb</think>".data] ∧
    jsIncludes "k>bb</think>".data "bb".data = true := by decide

/-- C2 counterexample: deleting the interior message 1 of the
root → 1 → 2 chain also removes its descendant 2 from the collection —
descendants are cascade-deleted, not left present and unreachable as the
claim states. -/
theorem c2_delete_counterexample :
    TreeOps.deleteMessage exConvMessages 1 =
      some [{ id := 0, ancestors := some [], children := [], content := [] }] ∧
    2 ∈ exConvMessages.map (fun m => m.id) ∧
    ((TreeOps.deleteMessage exConvMessages 1).getD []).map (fun m => m.id) = [0] := by
  decide

/-- C6 counterexample: when the tool invocation succeeds but the follow-up
synthesis completion throws, the turn emits Tool.Call, Tool.ETA,
Tool.Result, then additionally Tool.Error, then the FinalAnswer — both a
Result and an Error appear, contrary to the claimed exactly-one-of shape. -/
theorem c6_synthesis_failure_counterexample :
    GenMcp.generate [exServerS] exMcpOracles plainCfg none 0 [] =
      ([.toolCall "u1".data "fn".data [], .toolEta "u1".data 10,
        .toolResult "u1".data "fn".data [] none ["out".data],
        .toolError "u1".data "boom".data,
        .finalAnswer "MCP error: boom".data false], 1) := by decide

/-- C7 counterexample: a user message `server.tool {bad json` without the
`/mcp ` prefix does not match the inline-command pattern, so the endpoint
falls through to a normal model completion (model generation does occur)
and the turn emits a Stream event — contrary to the claimed short-circuit. -/
theorem c7_inline_counterexample :
    Oai.endpointOaiChat [exServer] exOracles true
        [{ role := .user, content := "server.tool \x7bbad json".data }] =
      (.stream exOracles.providerStream, true) ∧
    Gen.generate plainCfg none 0
        (Oai.endpointOutputs (.stream exOracles.providerStream)) =
      [.stream "hi".data, .finalAnswer "hi".data false] := by decide

theorem TreeOps.stripChild_id (t : Nat) (m : TreeOps.DbMessage) :
    (TreeOps.stripChild t m).id = m.id := by
  unfold TreeOps.stripChild; split <;> rfl

theorem TreeOps.stripChild_ancestors (t : Nat) (m : TreeOps.DbMessage) :
    (TreeOps.stripChild t m).ancestors = m.ancestors := by
  unfold TreeOps.stripChild; split <;> rfl

theorem TreeOps.stripChild_content (t : Nat) (m : TreeOps.DbMessage) :
    (TreeOps.stripChild t m).content = m.content := by
  unfold TreeOps.stripChild; split <;> rfl

theorem TreeOps.stripChild_children (t : Nat) (m : TreeOps.DbMessage) :
    (TreeOps.stripChild t m).children = m.children.filter fun c => !(c == t) := by
  unfold TreeOps.stripChild
  split
  · rfl
  · next h =>
    refine (List.filter_eq_self.mpr ?_).symm
    intro a ha
    simp only [Bool.not_eq_true', beq_eq_false_iff_ne]
    exact fun hEq => h (hEq ▸ ha)

theorem TreeOps.survives_iff (t : Nat) (m : TreeOps.DbMessage) :
    TreeOps.survives t m = true ↔
      (m.id ≠ t ∧ ∃ a, m.ancestors = some a ∧ t ∉ a) := by
  unfold TreeOps.survives
  cases h : m.ancestors <;>
    simp [List.contains, List.elem_iff]

/-- C2 (amended): for a target id present in the collection, the delete
handler returns exactly the messages that are neither the target nor have
the target among their ancestors — descendants of an interior node are
cascade-deleted, not left unreachable — with the target stripped from every
surviving children list, and ancestors, content and id untouched (no
reparenting). -/
theorem c2_delete_amended (messages : List TreeOps.DbMessage) (target : Nat)
    (hmem : target ∈ messages.map fun m => m.id)
    (hnodup : (messages.map fun m => m.id).Nodup) :
    ∃ l, TreeOps.deleteMessage messages target = some l ∧
      (∀ m' ∈ l, m'.id ≠ target ∧ (∀ a, m'.ancestors = some a → target ∉ a) ∧
        target ∉ m'.children) ∧
      (∀ m ∈ messages, m.id ≠ target → m.ancestors ≠ none →
        (∀ a, m.ancestors = some a → target ∉ a) →
        (TreeOps.stripChild target m ∈ l ∧
          (TreeOps.stripChild target m).id = m.id ∧
          (TreeOps.stripChild target m).ancestors = m.ancestors ∧
          (TreeOps.stripChild target m).content = m.content ∧
          (TreeOps.stripChild target m).children =
            m.children.filter fun c => !(c == target))) ∧
      (∀ m ∈ messages, ∀ a, m.ancestors = some a → target ∈ a →
        ∀ m' ∈ l, m'.id ≠ m.id) := by
  refine ⟨(messages.filter (TreeOps.survives target)).map (TreeOps.stripChild target),
    ?_, ?_, ?_, ?_⟩
  · unfold TreeOps.deleteMessage
    rw [if_pos hmem]
  · intro m' hm'
    obtain ⟨m₀, hm₀, rfl⟩ := List.mem_map.mp hm'
    obtain ⟨hm₀mem, hs⟩ := List.mem_filter.mp hm₀
    obtain ⟨hid, a, ha, hna⟩ := (TreeOps.survives_iff target m₀).mp hs
    refine ⟨by rw [TreeOps.stripChild_id]; exact hid, ?_, ?_⟩
    · intro a' ha'
      rw [TreeOps.stripChild_ancestors] at ha'
      rw [ha] at ha'
      cases ha'
      exact hna
    · rw [TreeOps.stripChild_children]
      intro hmem'
      have := (List.mem_filter.mp hmem').2
      simp at this
  · intro m hm hid hanc hna
    have hs : TreeOps.survives target m = true := by
      rw [TreeOps.survives_iff]
      refine ⟨hid, ?_⟩
      cases h : m.ancestors with
      | none => exact absurd h hanc
      | some a => exact ⟨a, rfl, hna a h⟩
    exact ⟨List.mem_map_of_mem _ (List.mem_filter.mpr ⟨hm, hs⟩),
      TreeOps.stripChild_id target m, TreeOps.stripChild_ancestors target m,
      TreeOps.stripChild_content target m, TreeOps.stripChild_children target m⟩
  · intro m hm a ha hmem' m' hm'l hEq
    obtain ⟨m₀, hm₀, rfl⟩ := List.mem_map.mp hm'l
    obtain ⟨hm₀mem, hs⟩ := List.mem_filter.mp hm₀
    rw [TreeOps.stripChild_id] at hEq
    have : m₀ = m := List.inj_on_of_nodup_map hnodup hm₀mem hm hEq
    subst this
    obtain ⟨_, a', ha', hna'⟩ := (TreeOps.survives_iff target m₀).mp hs
    rw [ha] at ha'
    cases ha'
    exact hna' hmem'

/-- Witness for C2 (amended) at the three-message example, deleting the
interior message 1. -/
theorem c2_delete_amended_witness :
    (1 ∈ exConvMessages.map fun m => m.id) ∧
    ((exConvMessages.map fun m => m.id).Nodup) ∧
    (∃ l, TreeOps.deleteMessage exConvMessages 1 = some l ∧
      (∀ m' ∈ l, m'.id ≠ 1 ∧ (∀ a, m'.ancestors = some a → 1 ∉ a) ∧
        1 ∉ m'.children) ∧
      (∀ m ∈ exConvMessages, m.id ≠ 1 → m.ancestors ≠ none →
        (∀ a, m.ancestors = some a → 1 ∉ a) →
        (TreeOps.stripChild 1 m ∈ l ∧
          (TreeOps.stripChild 1 m).id = m.id ∧
          (TreeOps.stripChild 1 m).ancestors = m.ancestors ∧
          (TreeOps.stripChild 1 m).content = m.content ∧
          (TreeOps.stripChild 1 m).children =
            m.children.filter fun c => !(c == 1))) ∧
      (∀ m ∈ exConvMessages, ∀ a, m.ancestors = some a → 1 ∈ a →
        ∀ m' ∈ l, m'.id ≠ m.id)) :=
  ⟨by decide, by decide, c2_delete_amended exConvMessages 1 (by decide) (by decide)⟩


theorem gen_applyReasoningDelta_events (st : Gen.GenState) (o : Gen.ProviderOutput) :
    ∀ e ∈ (Gen.applyReasoningDelta st o).2,
      isStatusEvent e = false ∧ isFinalAnswerEvent e = false := by
  intro e he
  simp only [Gen.applyReasoningDelta] at he
  repeat' split at he
  all_goals fin_cases he <;> exact ⟨rfl, rfl⟩

theorem gen_publishCall_events (uuid : Str) (buf : Gen.ArgBuf) :
    ∀ e ∈ (Gen.publishCall uuid buf).2,
      isStatusEvent e = false ∧ isFinalAnswerEvent e = false := by
  intro e he
  unfold Gen.publishCall at he
  repeat' split at he
  all_goals fin_cases he <;> exact ⟨rfl, rfl⟩

theorem gen_publishParsed_events (uuid : Str) (buf : Gen.ArgBuf) :
    ∀ e ∈ (Gen.publishParsed uuid buf).2,
      isStatusEvent e = false ∧ isFinalAnswerEvent e = false := by
  intro e he
  unfold Gen.publishParsed at he
  repeat' split at he
  all_goals fin_cases he <;> exact ⟨rfl, rfl⟩

theorem gen_applyToolCallDelta_events (st : Gen.GenState) (d : Gen.ToolCallDelta) :
    ∀ e ∈ (Gen.applyToolCallDelta st d).2,
      isStatusEvent e = false ∧ isFinalAnswerEvent e = false := by
  intro e he
  simp only [Gen.applyToolCallDelta, List.mem_append] at he
  rcases he with he | he
  · exact gen_publishCall_events _ _ e he
  · exact gen_publishParsed_events _ _ e he

theorem gen_applyToolCallDeltas_events (ds : List Gen.ToolCallDelta) :
    ∀ (st : Gen.GenState), ∀ e ∈ (Gen.applyToolCallDeltas st ds).2,
      isStatusEvent e = false ∧ isFinalAnswerEvent e = false := by
  induction ds with
  | nil => intro st e he; simp [Gen.applyToolCallDeltas] at he
  | cons d rest ih =>
    intro st e he
    simp only [Gen.applyToolCallDeltas, List.mem_append] at he
    rcases he with he | he
    · exact gen_applyToolCallDelta_events st d e he
    · exact ih _ e he

theorem gen_applyToolResultDelta_events (o : Gen.ProviderOutput) :
    ∀ e ∈ Gen.applyToolResultDelta o,
      isStatusEvent e = false ∧ isFinalAnswerEvent e = false := by
  intro e he
  simp only [Gen.applyToolResultDelta] at he
  repeat' split at he
  all_goals fin_cases he <;> exact ⟨rfl, rfl⟩

theorem gen_finalAnswerEvents_no_status (cfg : Gen.GenCfg) (st : Gen.GenState)
    (o : Gen.ProviderOutput) (g : Str) :
    ∀ e ∈ Gen.finalAnswerEvents cfg st o g, isStatusEvent e = false := by
  intro e he
  simp only [Gen.finalAnswerEvents] at he
  repeat' split at he
  all_goals try simp only [List.cons_append, List.nil_append] at he
  all_goals fin_cases he <;> rfl

theorem gen_tokenPhase_events_shape (cfg : Gen.GenCfg) (A : Option Nat) (p : Nat)
    (st : Gen.GenState) (side : List MessageUpdate) (o : Gen.ProviderOutput) :
    ∃ extra, (Gen.tokenPhase cfg A p st side o).events = side ++ extra ∧
      ∀ e ∈ extra, isStatusEvent e = false ∧ isFinalAnswerEvent e = false := by
  simp only [Gen.tokenPhase]
  repeat' split
  all_goals
    first
      | exact ⟨[], (List.append_nil side).symm, by simp⟩
      | exact ⟨_, rfl, by
          intro e he
          try simp only [List.cons_append, List.nil_append] at he
          fin_cases he <;> exact ⟨rfl, rfl⟩⟩

theorem gen_genStep_no_status (cfg : Gen.GenCfg) (A : Option Nat) (p : Nat)
    (st : Gen.GenState) (o : Gen.ProviderOutput) :
    ∀ e ∈ (Gen.genStep cfg A p st o).events, isStatusEvent e = false := by
  intro e he
  simp only [Gen.genStep] at he
  split at he
  · simp only [List.mem_append] at he
    rcases he with ((he | he) | he) | he
    · exact (gen_applyReasoningDelta_events _ o e he).1
    · exact (gen_applyToolCallDeltas_events o.toolCallDeltas _ e he).1
    · exact (gen_applyToolResultDelta_events o e he).1
    · exact gen_finalAnswerEvents_no_status cfg _ o _ e he
  · obtain ⟨extra, heq, hex⟩ := gen_tokenPhase_events_shape cfg A p _ _ o
    rw [heq] at he
    simp only [List.mem_append] at he
    rcases he with ((he | he) | he) | he
    · exact (gen_applyReasoningDelta_events _ o e he).1
    · exact (gen_applyToolCallDeltas_events o.toolCallDeltas _ e he).1
    · exact (gen_applyToolResultDelta_events o e he).1
    · exact (hex e he).1

theorem gen_genRun_no_status (cfg : Gen.GenCfg) (A : Option Nat) (p : Nat) :
    ∀ (outs : List Gen.ProviderOutput) (st : Gen.GenState),
      ∀ e ∈ (Gen.genRun cfg A p st outs).events, isStatusEvent e = false := by
  intro outs
  induction outs with
  | nil => intro st e he; simp [Gen.genRun] at he
  | cons o rest ih =>
    intro st e he
    simp only [Gen.genRun] at he
    split at he
    · exact gen_genStep_no_status cfg A p st o e he
    · simp only [List.mem_append] at he
      rcases he with he | he
      · exact gen_genStep_no_status cfg A p st o e he
      · exact ih _ e he

theorem gen_generate_no_status (cfg : Gen.GenCfg) (A : Option Nat) (p : Nat)
    (outs : List Gen.ProviderOutput) :
    ∀ e ∈ Gen.generate cfg A p outs, isStatusEvent e = false := by
  intro e he
  simp only [Gen.generate, List.mem_append] at he
  rcases he with he | he
  · unfold Gen.preludeEvents at he
    split at he
    all_goals fin_cases he <;> rfl
  · exact gen_genRun_no_status cfg A p outs _ e he

theorem merge_mergeSchedule_mem (sched : List Merge.Producer) :
    ∀ (a b c : List MessageUpdate), ∀ e ∈ Merge.mergeSchedule sched a b c,
      e ∈ a ∨ e ∈ b ∨ e ∈ c := by
  induction sched with
  | nil =>
    intro a b c e he
    simp only [Merge.mergeSchedule, List.mem_append] at he
    tauto
  | cons pr s ih =>
    intro a b c e he
    cases pr
    case titleTask =>
      cases a with
      | nil =>
        simp only [Merge.mergeSchedule] at he
        rcases ih [] b c e he with h | h | h
        · exact absurd h (List.not_mem_nil e)
        · exact Or.inr (Or.inl h)
        · exact Or.inr (Or.inr h)
      | cons x a' =>
        simp only [Merge.mergeSchedule] at he
        rcases List.mem_cons.mp he with rfl | he'
        · exact Or.inl (List.mem_cons_self _ _)
        · rcases ih a' b c e he' with h | h | h
          · exact Or.inl (List.mem_cons_of_mem _ h)
          · exact Or.inr (Or.inl h)
          · exact Or.inr (Or.inr h)
    case mainTask =>
      cases b with
      | nil =>
        simp only [Merge.mergeSchedule] at he
        rcases ih a [] c e he with h | h | h
        · exact Or.inl h
        · exact absurd h (List.not_mem_nil e)
        · exact Or.inr (Or.inr h)
      | cons x b' =>
        simp only [Merge.mergeSchedule] at he
        rcases List.mem_cons.mp he with rfl | he'
        · exact Or.inr (Or.inl (List.mem_cons_self _ _))
        · rcases ih a b' c e he' with h | h | h
          · exact Or.inl h
          · exact Or.inr (Or.inl (List.mem_cons_of_mem _ h))
          · exact Or.inr (Or.inr h)
    case heartbeat =>
      cases c with
      | nil =>
        simp only [Merge.mergeSchedule] at he
        rcases ih a b [] e he with h | h | h
        · exact Or.inl h
        · exact Or.inr (Or.inl h)
        · exact absurd h (List.not_mem_nil e)
      | cons x c' =>
        simp only [Merge.mergeSchedule] at he
        rcases List.mem_cons.mp he with rfl | he'
        · exact Or.inr (Or.inr (List.mem_cons_self _ _))
        · rcases ih a b c' e he' with h | h | h
          · exact Or.inl h
          · exact Or.inr (Or.inl h)
          · exact Or.inr (Or.inr (List.mem_cons_of_mem _ h))

/-- C4: every merged turn stream contains exactly one Status started event,
and it is the very first element — it precedes every keep-alive Status
event and every Title event of the concurrently merged producers, under
every schedule.  (The merge utility and the title producer are modelled
from the spec; the Started emission, `generate` and `keepAlive` come from
the source.) -/
theorem c4_started_first (sched : List Merge.Producer) (title : Option Str)
    (ticks : Nat) (cfg : Gen.GenCfg) (A : Option Nat) (p : Nat)
    (outs : List Gen.ProviderOutput) :
    (Merge.textGenerationMerged sched title ticks cfg A p outs).head? =
      some Merge.startedEvent ∧
    (Merge.textGenerationMerged sched title ticks cfg A p outs).countP
      isStartedEvent = 1 ∧
    ∀ e ∈ (Merge.textGenerationMerged sched title ticks cfg A p outs).tail,
      isStartedEvent e = false := by
  have htail : ∀ e ∈ Merge.mergeSchedule sched (Merge.titleEvents title)
      (Gen.generate cfg A p outs) (Merge.keepAliveEvents ticks),
      isStartedEvent e = false := by
    intro e he
    rcases merge_mergeSchedule_mem sched _ _ _ e he with h | h | h
    · cases title <;> simp_all [Merge.titleEvents, isStartedEvent]
    · have := gen_generate_no_status cfg A p outs e h
      cases e <;> simp_all [isStatusEvent, isStartedEvent]
    · simp only [Merge.keepAliveEvents, List.mem_replicate] at h
      rw [h.2]
      decide
  refine ⟨rfl, ?_, ?_⟩
  · simp only [Merge.textGenerationMerged, List.countP_cons]
    rw [List.countP_eq_zero.mpr fun a ha => by rw [htail a ha]; simp]
    decide
  · intro e he
    exact htail e he

theorem gen_genRun_events_append (cfg : Gen.GenCfg) (A : Option Nat) (p : Nat) :
    ∀ (xs ys : List Gen.ProviderOutput) (st : Gen.GenState),
      (Gen.genRun cfg A p st (xs ++ ys)).events =
        if (Gen.genRun cfg A p st xs).stopped then
          (Gen.genRun cfg A p st xs).events
        else
          (Gen.genRun cfg A p st xs).events ++
            (Gen.genRun cfg A p (Gen.genRun cfg A p st xs).state ys).events := by
  intro xs
  induction xs with
  | nil => intro ys st; simp [Gen.genRun]
  | cons o xs ih =>
    intro ys st
    simp only [List.cons_append, Gen.genRun]
    by_cases hstop : (Gen.genStep cfg A p st o).stop = true
    · simp [hstop]
    · simp only [hstop, if_false, Bool.false_eq_true, List.append_eq]
      rw [ih ys (Gen.genStep cfg A p st o).state]
      by_cases hs2 : (Gen.genRun cfg A p (Gen.genStep cfg A p st o).state xs).stopped = true
      · simp [hs2]
      · simp [hs2, List.append_assoc]

theorem gen_tokenPhase_checked_stop (cfg : Gen.GenCfg) (A : Option Nat) (p : Nat)
    (st : Gen.GenState) (side : List MessageUpdate) (o : Gen.ProviderOutput) :
    (Gen.tokenPhase cfg A p st side o).checked = false ∨
    (Gen.tokenPhase cfg A p st side o).stop = Gen.abortNewer A p := by
  simp only [Gen.tokenPhase]
  repeat' split
  all_goals simp

theorem gen_side_countP_final (st0 : Gen.GenState) (o : Gen.ProviderOutput) :
    ((Gen.applyReasoningDelta st0 o).2 ++
      (Gen.applyToolCallDeltas (Gen.applyReasoningDelta st0 o).1 o.toolCallDeltas).2 ++
      Gen.applyToolResultDelta o).countP isFinalAnswerEvent = 0 := by
  rw [List.countP_append, List.countP_append]
  rw [List.countP_eq_zero.mpr fun a ha => by
        rw [(gen_applyReasoningDelta_events st0 o a ha).2]; simp]
  rw [List.countP_eq_zero.mpr fun a ha => by
        rw [(gen_applyToolCallDeltas_events o.toolCallDeltas _ a ha).2]; simp]
  rw [List.countP_eq_zero.mpr fun a ha => by
        rw [(gen_applyToolResultDelta_events o a ha).2]; simp]

theorem gen_genStep_checked_props (cfg : Gen.GenCfg) (A : Option Nat) (p : Nat)
    (st : Gen.GenState) (o : Gen.ProviderOutput)
    (h : (Gen.genStep cfg A p st o).checked = true) :
    (Gen.genStep cfg A p st o).stop = Gen.abortNewer A p ∧
    (Gen.genStep cfg A p st o).events.countP isFinalAnswerEvent = 0 := by
  by_cases ht : Gen.truthyStr o.generatedText = true
  · simp [Gen.genStep, ht] at h
  · simp only [Gen.genStep, ht, if_false, Bool.false_eq_true] at h ⊢
    rcases gen_tokenPhase_checked_stop cfg A p _ _ o with hc | hs
    · rw [h] at hc; exact absurd hc (by simp)
    · refine ⟨hs, ?_⟩
      obtain ⟨extra, heq, hex⟩ := gen_tokenPhase_events_shape cfg A p _ _ o
      rw [heq, List.countP_append, gen_side_countP_final]
      rw [List.countP_eq_zero.mpr fun a ha => by rw [(hex a ha).2]; simp]

/-- C3 (amended): when the abort registry holds a timestamp newer than the
turn's promptedAt, the main generator stops consuming provider tokens after
the current one — the event stream is exactly that of the prefix ending at
the first output that reaches the abort check, and no event emitted by that
output is a FinalAnswer: the abort path ends the stream without a
FinalAnswer (so without interrupted=true). -/
theorem c3_abort_amended (cfg : Gen.GenCfg) (d promptedAt : Nat)
    (st : Gen.GenState) (pre post : List Gen.ProviderOutput)
    (o : Gen.ProviderOutput)
    (habort : promptedAt < d)
    (hpre : (Gen.genRun cfg (some d) promptedAt st pre).stopped = false)
    (hchk : (Gen.genStep cfg (some d) promptedAt
        (Gen.genRun cfg (some d) promptedAt st pre).state o).checked = true) :
    (Gen.genRun cfg (some d) promptedAt st (pre ++ o :: post)).events =
      (Gen.genRun cfg (some d) promptedAt st (pre ++ [o])).events ∧
    (Gen.genStep cfg (some d) promptedAt
        (Gen.genRun cfg (some d) promptedAt st pre).state o).events.countP
      isFinalAnswerEvent = 0 := by
  obtain ⟨hstop, hnofinal⟩ := gen_genStep_checked_props cfg (some d) promptedAt _ o hchk
  have habt : Gen.abortNewer (some d) promptedAt = true := by
    simp [Gen.abortNewer, habort]
  refine ⟨?_, hnofinal⟩
  rw [gen_genRun_events_append cfg (some d) promptedAt pre (o :: post) st,
    gen_genRun_events_append cfg (some d) promptedAt pre [o] st]
  rw [if_neg (by simp [hpre]), if_neg (by simp [hpre])]
  congr 1
  simp only [Gen.genRun]
  rw [hstop, habt]
  simp

/-- Witness for C3 (amended) at a concrete aborted stream. -/
theorem c3_abort_amended_witness :
    ((3 : Nat) < 5) ∧
    ((Gen.genRun plainCfg (some 5) 3 (Gen.initialState plainCfg) []).stopped = false) ∧
    ((Gen.genStep plainCfg (some 5) 3
        (Gen.genRun plainCfg (some 5) 3 (Gen.initialState plainCfg) []).state
        (tokOut "x".data)).checked = true) ∧
    ((Gen.genRun plainCfg (some 5) 3 (Gen.initialState plainCfg)
        ([] ++ tokOut "x".data :: [tokOut "y".data])).events =
      (Gen.genRun plainCfg (some 5) 3 (Gen.initialState plainCfg)
        ([] ++ [tokOut "x".data])).events ∧
    (Gen.genStep plainCfg (some 5) 3
        (Gen.genRun plainCfg (some 5) 3 (Gen.initialState plainCfg) []).state
        (tokOut "x".data)).events.countP isFinalAnswerEvent = 0) :=
  ⟨by decide, by decide, by decide,
   c3_abort_amended plainCfg 5 3 (Gen.initialState plainCfg) [] [tokOut "y".data]
     (tokOut "x".data) (by decide) (by decide) (by decide)⟩

theorem convGroup_update_wire_noOutput (r : Bool) (init : Str)
    (st : ConvGroup.TurnState) (e : MessageUpdate) :
    (ConvGroup.WireItem.event ConvGroup.noOutputEvent ∈ (ConvGroup.update r init st e).2.1) ↔
      e = ConvGroup.noOutputEvent := by
  cases e
  case stream tok =>
    by_cases h : tok = [] <;>
      simp [ConvGroup.update, h, ConvGroup.noOutputEvent]
  all_goals simp [ConvGroup.update, ConvGroup.noOutputEvent]
  all_goals constructor <;> rintro ⟨h1, h2⟩ <;> exact ⟨h1.symm, h2.symm⟩

theorem convGroup_update_status_content (r : Bool) (init : Str)
    (st : ConvGroup.TurnState) (s : StatusKind) (m : Option Str) :
    ((ConvGroup.update r init st (.status s m)).1).msg.content =
      st.msg.content := by
  simp only [ConvGroup.update]
  split <;> rfl

theorem convGroup_applyEvents_wire_noOutput (r : Bool) (init : Str) :
    ∀ (evs : List MessageUpdate) (st : ConvGroup.TurnState),
      (ConvGroup.WireItem.event ConvGroup.noOutputEvent ∈
        (ConvGroup.applyEvents r init st evs).2.1) ↔
        ConvGroup.noOutputEvent ∈ evs := by
  intro evs
  induction evs with
  | nil => intro st; simp [ConvGroup.applyEvents]
  | cons e rest ih =>
    intro st
    simp only [ConvGroup.applyEvents, List.mem_append, List.mem_cons]
    rw [convGroup_update_wire_noOutput, ih]
    tauto

/-- C5: the synthetic "no output" Status error appears on the wire exactly
when the turn threw no error and the target message's content after the
event stream equals its content at turn start — zero content produced and
no prior error reported. -/
theorem c5_no_output_iff (isRouter : Bool) (st0 : ConvGroup.TurnState)
    (events : List MessageUpdate) (thrown : Option Str)
    (hne : ConvGroup.noOutputEvent ∉ events)
    (hth : thrown ≠ some ConvGroup.noOutputMsg) :
    (ConvGroup.WireItem.event ConvGroup.noOutputEvent ∈
        (ConvGroup.runTurn isRouter st0 events thrown).wire) ↔
      (thrown = none ∧
        ((ConvGroup.applyEvents isRouter st0.msg.content st0 events).1).msg.content =
          st0.msg.content) := by
  have hmem1 := convGroup_applyEvents_wire_noOutput isRouter st0.msg.content events st0
  cases thrown with
  | none =>
    by_cases hc : ((ConvGroup.applyEvents isRouter st0.msg.content st0 events).1).msg.content =
        st0.msg.content
    · simp only [ConvGroup.runTurn]
      rw [if_pos (by exact ⟨trivial, hc⟩)]
      simp only [List.mem_append]
      rw [hmem1, convGroup_update_wire_noOutput]
      simp [hne, hc]
    · simp only [ConvGroup.runTurn]
      rw [if_neg (by simp [hc])]
      simp only [List.mem_append]
      rw [hmem1]
      simp [hne, hc]
  | some m =>
    have hm : m ≠ ConvGroup.noOutputMsg := fun h => hth (by rw [h])
    simp only [ConvGroup.runTurn]
    rw [if_neg (by simp)]
    simp only [List.mem_append]
    rw [hmem1, convGroup_update_wire_noOutput]
    simp [hne, ConvGroup.noOutputEvent, hm]
    exact hne

/-- Witness for C5: an empty event stream with no thrown error triggers the
synthetic no-output error. -/
theorem c5_no_output_iff_witness :
    (ConvGroup.noOutputEvent ∉ ([] : List MessageUpdate)) ∧
    ((none : Option Str) ≠ some ConvGroup.noOutputMsg) ∧
    ((ConvGroup.WireItem.event ConvGroup.noOutputEvent ∈
        (ConvGroup.runTurn false ⟨⟨[], none, none, [], [], none⟩, []⟩ [] none).wire) ↔
      ((none : Option Str) = none ∧
        ((ConvGroup.applyEvents false
            (⟨⟨[], none, none, [], [], none⟩, []⟩ : ConvGroup.TurnState).msg.content
            ⟨⟨[], none, none, [], [], none⟩, []⟩ []).1).msg.content =
          (⟨⟨[], none, none, [], [], none⟩, []⟩ : ConvGroup.TurnState).msg.content)) :=
  ⟨by decide, by decide,
   c5_no_output_iff false ⟨⟨[], none, none, [], [], none⟩, []⟩ [] none
     (by decide) (by decide)⟩

theorem jsIndexOf_of_isPrefixOf (s pat : Str) (h : pat.isPrefixOf s = true) :
    jsIndexOf s pat = 0 := by
  cases s with
  | nil => simp [jsIndexOf, jsIndexOf.go, h]
  | cons c t => simp [jsIndexOf, jsIndexOf.go, h]

/-- C8 (amended): in tokens mode, when the generated text is exactly the
reasoning buffer followed by trailing content and the end marker occurs in
the buffer only as its suffix, the computed final answer equals exactly the
trailing content — the whole reasoning span (markers included) is removed
from the final answer, so no reasoning content is duplicated into it. -/
theorem c8_no_duplication_amended (b e mid rest : Str)
    (hb : b ≠ [])
    (hlast : jsLastIndexOf (b ++ mid ++ e) e = ((b ++ mid).length : Int)) :
    Gen.computeTokensFinalAnswer b e (b ++ mid ++ e) ((b ++ mid ++ e) ++ rest) =
      rest := by
  have hpre : b.isPrefixOf (b ++ mid ++ e) = true := by
    rw [List.append_assoc]
    exact List.isPrefixOf_iff_prefix.mpr (List.prefix_append b (mid ++ e))
  have hidx : jsIndexOf (b ++ mid ++ e) b = 0 := jsIndexOf_of_isPrefixOf _ _ hpre
  unfold Gen.computeTokensFinalAnswer
  rw [if_pos hb, hidx, hlast]
  rw [if_pos ⟨by omega, by omega⟩]
  have harith : ((((b ++ mid).length : Int)) + (e.length : Nat)).toNat =
      (b ++ mid ++ e).length := by
    simp [List.length_append]
    omega
  rw [harith]
  simp [List.drop_left]

/-- Witness for C8 (amended) at concrete marker and content strings. -/
theorem c8_no_duplication_amended_witness :
    (("<t>".data : Str) ≠ []) ∧
    (jsLastIndexOf ("<t>".data ++ "x".data ++ "</t>".data) "</t>".data =
      (("<t>".data ++ "x".data).length : Int)) ∧
    Gen.computeTokensFinalAnswer "<t>".data "</t>".data
        ("<t>".data ++ "x".data ++ "</t>".data)
        (("<t>".data ++ "x".data ++ "</t>".data) ++ "yz".data) = "yz".data :=
  ⟨by decide, by decide,
   c8_no_duplication_amended "<t>".data "</t>".data "x".data "yz".data
     (by decide) (by decide)⟩

theorem genmcp_mcpPath_invocations (servers : List Oai.McpServer)
    (oc : GenMcp.McpOracles) (pr : List MessageUpdate × Nat)
    (h : GenMcp.mcpPath servers oc = some pr) : pr.2 ≤ 1 := by
  unfold GenMcp.mcpPath at h
  repeat' split at h
  all_goals first
    | (injection h with h2; subst h2; simp)
    | (injection h)

/-- C6 (amended): when the model returns a structured tool call, the turn's
events are Tool.Call, Tool.ETA, then either one Tool.Result or one
Tool.Error — or, when the invocation succeeded but the follow-up synthesis
threw, a Tool.Result followed by a Tool.Error — and a single FinalAnswer as
the last event; and no turn ever performs more than one tool invocation. -/
theorem c6_tool_path_amended (servers : List Oai.McpServer)
    (oc : GenMcp.McpOracles) (cfg : Gen.GenCfg) (A : Option Nat) (p : Nat)
    (outs : List Gen.ProviderOutput) (tools : List Str)
    (mapping : Str → Option (Str × Str)) (fn rawArgs : Str)
    (hservers : servers ≠ [])
    (htools : oc.getTools = .ok (tools, mapping))
    (htoolsne : tools ≠ [])
    (hcall : oc.completion = .ok (some (fn, rawArgs))) :
    ((GenMcp.generate servers oc cfg A p outs).2 ≤ 1 ∧
     (∃ body,
       (GenMcp.generate servers oc cfg A p outs).1 =
         MessageUpdate.toolCall oc.uuid fn
             (GenMcp.parametersClean (GenMcp.parseArgs rawArgs)) ::
           MessageUpdate.toolEta oc.uuid 10 :: body ∧
       ((∃ m fa, body = [.toolError oc.uuid m, .finalAnswer fa false]) ∨
        (∃ outp fa, body =
          [.toolResult oc.uuid fn (GenMcp.parametersClean (GenMcp.parseArgs rawArgs))
             none [outp], .finalAnswer fa false]) ∨
        (∃ outp m fa, body =
          [.toolResult oc.uuid fn (GenMcp.parametersClean (GenMcp.parseArgs rawArgs))
             none [outp], .toolError oc.uuid m, .finalAnswer fa false])) ∧
       (GenMcp.generate servers oc cfg A p outs).1.countP isFinalAnswerEvent = 1)) ∧
    (∀ (servers' : List Oai.McpServer) (oc' : GenMcp.McpOracles)
       (cfg' : Gen.GenCfg) (A' : Option Nat) (p' : Nat)
       (outs' : List Gen.ProviderOutput),
      (GenMcp.generate servers' oc' cfg' A' p' outs').2 ≤ 1) := by
  constructor
  · rcases hmap : mapping fn with _ | snTn
    · have hgen : GenMcp.generate servers oc cfg A p outs =
          ([MessageUpdate.toolCall oc.uuid fn
              (GenMcp.parametersClean (GenMcp.parseArgs rawArgs)),
            MessageUpdate.toolEta oc.uuid 10,
            .toolError oc.uuid (GenMcp.unknownFnMsg fn),
            .finalAnswer (GenMcp.unknownFnMsg fn) false], 0) := by
        simp [GenMcp.generate, GenMcp.mcpPath, hservers, htools, htoolsne, hcall, hmap]
      rw [hgen]
      refine ⟨by simp, _, rfl, Or.inl ⟨_, _, rfl⟩, by
        simp [List.countP_cons, isFinalAnswerEvent]⟩
    · obtain ⟨sn, tn⟩ := snTn
      rcases hfind : servers.find? (fun s => s.name == sn) with _ | srv
      · have hgen : GenMcp.generate servers oc cfg A p outs =
            ([MessageUpdate.toolCall oc.uuid fn
                (GenMcp.parametersClean (GenMcp.parseArgs rawArgs)),
              MessageUpdate.toolEta oc.uuid 10,
              .toolError oc.uuid undefinedServerErrMsg,
              .finalAnswer ("MCP error: ".data ++ undefinedServerErrMsg) false], 1) := by
          simp [GenMcp.generate, GenMcp.mcpPath, hservers, htools, htoolsne, hcall,
            hmap, hfind]
        rw [hgen]
        refine ⟨by simp, _, rfl, Or.inl ⟨_, _, rfl⟩, by
          simp [List.countP_cons, isFinalAnswerEvent]⟩
      · rcases hct : oc.callTool with m | outp
        · have hgen : GenMcp.generate servers oc cfg A p outs =
              ([MessageUpdate.toolCall oc.uuid fn
                  (GenMcp.parametersClean (GenMcp.parseArgs rawArgs)),
                MessageUpdate.toolEta oc.uuid 10,
                .toolError oc.uuid m,
                .finalAnswer ("MCP error: ".data ++ m) false], 1) := by
            simp [GenMcp.generate, GenMcp.mcpPath, hservers, htools, htoolsne, hcall,
              hmap, hfind, hct]
          rw [hgen]
          refine ⟨by simp, _, rfl, Or.inl ⟨_, _, rfl⟩, by
            simp [List.countP_cons, isFinalAnswerEvent]⟩
        · rcases hsy : oc.synthesis with m | syn
          · have hgen : GenMcp.generate servers oc cfg A p outs =
                ([MessageUpdate.toolCall oc.uuid fn
                    (GenMcp.parametersClean (GenMcp.parseArgs rawArgs)),
                  MessageUpdate.toolEta oc.uuid 10,
                  .toolResult oc.uuid fn
                    (GenMcp.parametersClean (GenMcp.parseArgs rawArgs)) none [outp],
                  .toolError oc.uuid m,
                  .finalAnswer ("MCP error: ".data ++ m) false], 1) := by
              simp [GenMcp.generate, GenMcp.mcpPath, hservers, htools, htoolsne, hcall,
                hmap, hfind, hct, hsy]
            rw [hgen]
            refine ⟨by simp, _, rfl, Or.inr (Or.inr ⟨_, _, _, rfl⟩), by
              simp [List.countP_cons, isFinalAnswerEvent]⟩
          · have hgen : GenMcp.generate servers oc cfg A p outs =
                ([MessageUpdate.toolCall oc.uuid fn
                    (GenMcp.parametersClean (GenMcp.parseArgs rawArgs)),
                  MessageUpdate.toolEta oc.uuid 10,
                  .toolResult oc.uuid fn
                    (GenMcp.parametersClean (GenMcp.parseArgs rawArgs)) none [outp],
                  .finalAnswer syn false], 1) := by
              simp [GenMcp.generate, GenMcp.mcpPath, hservers, htools, htoolsne, hcall,
                hmap, hfind, hct, hsy]
            rw [hgen]
            refine ⟨by simp, _, rfl, Or.inr (Or.inl ⟨_, _, rfl⟩), by
              simp [List.countP_cons, isFinalAnswerEvent]⟩
  · intro servers' oc' cfg' A' p' outs'
    unfold GenMcp.generate
    rcases h : GenMcp.mcpPath servers' oc' with _ | pr
    · simp
    · simpa using genmcp_mcpPath_invocations servers' oc' pr h

/-- Witness for C6 (amended) at the concrete success-path oracles. -/
theorem c6_tool_path_amended_witness :
    (([exServerS] : List Oai.McpServer) ≠ []) ∧
    (exMcpOraclesOk.getTools = .ok (["fn".data],
      fun n => if n = "fn".data then some ("s".data, "t".data) else none)) ∧
    ((["fn".data] : List Str) ≠ []) ∧
    (exMcpOraclesOk.completion = .ok (some ("fn".data, []))) ∧
    (((GenMcp.generate [exServerS] exMcpOraclesOk plainCfg none 0 []).2 ≤ 1 ∧
     (∃ body,
       (GenMcp.generate [exServerS] exMcpOraclesOk plainCfg none 0 []).1 =
         MessageUpdate.toolCall exMcpOraclesOk.uuid "fn".data
             (GenMcp.parametersClean (GenMcp.parseArgs [])) ::
           MessageUpdate.toolEta exMcpOraclesOk.uuid 10 :: body ∧
       ((∃ m fa, body = [.toolError exMcpOraclesOk.uuid m, .finalAnswer fa false]) ∨
        (∃ outp fa, body =
          [.toolResult exMcpOraclesOk.uuid "fn".data
             (GenMcp.parametersClean (GenMcp.parseArgs [])) none [outp],
           .finalAnswer fa false]) ∨
        (∃ outp m fa, body =
          [.toolResult exMcpOraclesOk.uuid "fn".data
             (GenMcp.parametersClean (GenMcp.parseArgs [])) none [outp],
           .toolError exMcpOraclesOk.uuid m, .finalAnswer fa false])) ∧
       (GenMcp.generate [exServerS] exMcpOraclesOk plainCfg none 0 []).1.countP
         isFinalAnswerEvent = 1)) ∧
    (∀ (servers' : List Oai.McpServer) (oc' : GenMcp.McpOracles)
       (cfg' : Gen.GenCfg) (A' : Option Nat) (p' : Nat)
       (outs' : List Gen.ProviderOutput),
      (GenMcp.generate servers' oc' cfg' A' p' outs').2 ≤ 1)) :=
  ⟨by decide, rfl, by decide, rfl,
   c6_tool_path_amended [exServerS] exMcpOraclesOk plainCfg none 0 []
     ["fn".data] (fun n => if n = "fn".data then some ("s".data, "t".data) else none)
     "fn".data [] (by decide) rfl (by decide) rfl⟩

theorem gen_finalAnswerEvents_counts (cfg : Gen.GenCfg) (st : Gen.GenState)
    (o : Gen.ProviderOutput) (g : Str) :
    (Gen.finalAnswerEvents cfg st o g).countP isFinalAnswerEvent = 1 ∧
    (Gen.finalAnswerEvents cfg st o g).countP isStreamEvent = 0 := by
  simp only [Gen.finalAnswerEvents]
  repeat' split
  all_goals simp [List.countP_cons, List.countP_append, isFinalAnswerEvent,
    isStreamEvent]

theorem gen_preludeEvents_counts (cfg : Gen.GenCfg) :
    (Gen.preludeEvents cfg).countP isFinalAnswerEvent = 0 ∧
    (Gen.preludeEvents cfg).countP isStreamEvent = 0 := by
  unfold Gen.preludeEvents
  split <;> simp [List.countP_cons, isFinalAnswerEvent, isStreamEvent]

theorem gen_generate_single (cfg : Gen.GenCfg) (p : Nat) (content : Str)
    (h : Gen.truthyStr (some content) = true) :
    Gen.generate cfg none p (Oai.endpointOutputs (.single content)) =
      Gen.preludeEvents cfg ++
        Gen.finalAnswerEvents cfg (Gen.initialState cfg)
          { tokenText := content, tokenSpecial := false,
            generatedText := some content } content := by
  simp [Gen.generate, Gen.genRun, Gen.genStep, Oai.endpointOutputs,
    Oai.openAIChatToTextGenerationSingle, h, Gen.applyReasoningDelta,
    Gen.applyToolCallDeltas, Gen.applyToolResultDelta]

/-- C7 (amended): with MCP servers configured, a user message of the form
`/mcp server.tool {bad json` naming a configured server with
unparseable JSON arguments short-circuits the endpoint: no model completion
is requested, the endpoint returns the single "Invalid JSON args" fake
completion, and the resulting turn emits exactly one FinalAnswer and zero
Stream events. -/
theorem c7_inline_amended (servers : List Oai.McpServer) (oc : Oai.OaiOracles)
    (messages : List Oai.EndpointMessage) (lastMsg : Oai.EndpointMessage)
    (serverName toolName raw : Str) (cfg : Gen.GenCfg) (p : Nat)
    (hlast : messages.getLast? = some lastMsg)
    (hrole : lastMsg.role = .user)
    (hmatch : Oai.inlineMatch lastMsg.content = some (serverName, toolName, some raw))
    (hfind : (servers.find? fun s => s.name == serverName).isSome)
    (hraw : raw ≠ [])
    (htrim : jsTrim raw ≠ [])
    (hparse : jsonParse raw = none) :
    Oai.endpointOaiChat servers oc true messages =
        (.single ("Invalid JSON args: ".data ++ jsonParseErrMsg), false) ∧
    (Gen.generate cfg none p
        (Oai.endpointOutputs (.single ("Invalid JSON args: ".data ++ jsonParseErrMsg)))).countP
      isFinalAnswerEvent = 1 ∧
    (Gen.generate cfg none p
        (Oai.endpointOutputs (.single ("Invalid JSON args: ".data ++ jsonParseErrMsg)))).countP
      isStreamEvent = 0 := by
  have hservers : servers ≠ [] := by
    intro hnil
    subst hnil
    simp [List.find?] at hfind
  obtain ⟨srv, hsrv⟩ := Option.isSome_iff_exists.mp hfind
  refine ⟨?_, ?_, ?_⟩
  · simp [Oai.endpointOaiChat, Oai.inlineHook, hservers, hlast, hrole, hmatch,
      hsrv, hraw, htrim, hparse]
  · rw [gen_generate_single cfg p _ (by decide)]
    rw [List.countP_append]
    rw [(gen_preludeEvents_counts cfg).1, (gen_finalAnswerEvents_counts cfg _ _ _).1]
  · rw [gen_generate_single cfg p _ (by decide)]
    rw [List.countP_append]
    rw [(gen_preludeEvents_counts cfg).2, (gen_finalAnswerEvents_counts cfg _ _ _).2]

/-- Witness for C7 (amended) at the concrete malformed inline command. -/
theorem c7_inline_amended_witness :
    (([{ role := .user, content := "/mcp server.tool \x7bbad json".data }] :
        List Oai.EndpointMessage).getLast? =
      some { role := .user, content := "/mcp server.tool \x7bbad json".data }) ∧
    ((Oai.EndpointMessage.mk .user "/mcp server.tool \x7bbad json".data).role = .user) ∧
    (Oai.inlineMatch "/mcp server.tool \x7bbad json".data =
      some ("server".data, "tool".data, some "\x7bbad json".data)) ∧
    (([exServer].find? fun s => s.name == "server".data).isSome) ∧
    (("\x7bbad json".data : Str) ≠ []) ∧
    (jsTrim "\x7bbad json".data ≠ []) ∧
    (jsonParse "\x7bbad json".data = none) ∧
    (Oai.endpointOaiChat [exServer] exOracles true
        [{ role := .user, content := "/mcp server.tool \x7bbad json".data }] =
      (.single ("Invalid JSON args: ".data ++ jsonParseErrMsg), false) ∧
    (Gen.generate plainCfg none 0
        (Oai.endpointOutputs (.single ("Invalid JSON args: ".data ++ jsonParseErrMsg)))).countP
      isFinalAnswerEvent = 1 ∧
    (Gen.generate plainCfg none 0
        (Oai.endpointOutputs (.single ("Invalid JSON args: ".data ++ jsonParseErrMsg)))).countP
      isStreamEvent = 0) :=
  ⟨by decide, by decide, by decide, by decide, by decide, by decide, by decide,
   c7_inline_amended [exServer] exOracles
     [{ role := .user, content := "/mcp server.tool \x7bbad json".data }]
     { role := .user, content := "/mcp server.tool \x7bbad json".data }
     "server".data "tool".data "\x7bbad json".data plainCfg 0
     (by decide) (by decide) (by decide) (by decide) (by decide) (by decide)
     (by decide)⟩
